import Mathlib

/-!
# Verification of the Telegram WebApp authentication gate

A shallow embedding of the backend's Telegram `initData` authentication
stack (`src/backend/src/utils/telegram.ts`, the `telegramAuth` middleware
and the Express error handler) together with proofs and refutations of the
specification's claims about it.

Machine integers are modelled as `Nat` with explicit `% 2^32` where
overflow matters; byte strings are `List Nat` with every byte `< 256`;
JavaScript strings are Lean `String`/`List Char` (UTF-16 code units of the
Basic Multilingual Plane coincide with code points, which covers every
input appearing here).
-/

set_option maxRecDepth 2000000

set_option maxHeartbeats 2000000

namespace TgAuth

/-! ## SHA-256 (model of node's `crypto.createHash('sha256')`)

A direct executable rendering of FIPS 180-4 over byte lists, used by the
source through `createHash`/`createHmac`. Words are `Nat` reduced mod
`2 ^ 32`. -/

/-- Truncate to a 32-bit word. -/
def w32 (n : Nat) : Nat := n % 4294967296

/-- Right-rotate a 32-bit word by `n` bits (`0 < n < 32`). -/
def rotr32 (n x : Nat) : Nat := x / 2 ^ n + x % 2 ^ n * 2 ^ (32 - n)

/-- Bitwise complement of a 32-bit word. -/
def not32 (x : Nat) : Nat := Nat.xor x 4294967295

/-- FIPS 180-4 `Ch`. -/
def ch32 (x y z : Nat) : Nat := Nat.xor (Nat.land x y) (Nat.land (not32 x) z)

/-- FIPS 180-4 `Maj`. -/
def maj32 (x y z : Nat) : Nat :=
  Nat.xor (Nat.xor (Nat.land x y) (Nat.land x z)) (Nat.land y z)

/-- FIPS 180-4 `Σ₀`. -/
def bsig0 (x : Nat) : Nat := Nat.xor (Nat.xor (rotr32 2 x) (rotr32 13 x)) (rotr32 22 x)

/-- FIPS 180-4 `Σ₁`. -/
def bsig1 (x : Nat) : Nat := Nat.xor (Nat.xor (rotr32 6 x) (rotr32 11 x)) (rotr32 25 x)

/-- FIPS 180-4 `σ₀`. -/
def ssig0 (x : Nat) : Nat := Nat.xor (Nat.xor (rotr32 7 x) (rotr32 18 x)) (x / 2 ^ 3)

/-- FIPS 180-4 `σ₁`. -/
def ssig1 (x : Nat) : Nat := Nat.xor (Nat.xor (rotr32 17 x) (rotr32 19 x)) (x / 2 ^ 10)

/-- The 64 SHA-256 round constants. -/
def sha256K : List Nat :=
  [1116352408, 1899447441, 3049323471, 3921009573, 961987163, 1508970993,
   2453635748, 2870763221, 3624381080, 310598401, 607225278, 1426881987,
   1925078388, 2162078206, 2614888103, 3248222580, 3835390401, 4022224774,
   264347078, 604807628, 770255983, 1249150122, 1555081692, 1996064986,
   2554220882, 2821834349, 2952996808, 3210313671, 3336571891, 3584528711,
   113926993, 338241895, 666307205, 773529912, 1294757372, 1396182291,
   1695183700, 1986661051, 2177026350, 2456956037, 2730485921, 2820302411,
   3259730800, 3345764771, 3516065817, 3600352804, 4094571909, 275423344,
   430227734, 506948616, 659060556, 883997877, 958139571, 1322822218,
   1537002063, 1747873779, 1955562222, 2024104815, 2227730452, 2361852424,
   2428436474, 2756734187, 3204031479, 3329325298]

/-- Working state of the compression function. -/
structure Sha256State where
  a : Nat
  b : Nat
  c : Nat
  d : Nat
  e : Nat
  f : Nat
  g : Nat
  h : Nat
deriving DecidableEq, Repr

/-- The SHA-256 initial hash value. -/
def sha256Init : Sha256State :=
  ⟨1779033703, 3144134277, 1013904242, 2773480762, 1359893119, 2600822924, 528734635, 1541459225⟩

/-- One compression round for round constant `k` and schedule word `w`. -/
def sha256Round (s : Sha256State) (kw : Nat × Nat) : Sha256State :=
  let t1 := w32 (s.h + bsig1 s.e + ch32 s.e s.f s.g + kw.1 + kw.2)
  let t2 := w32 (bsig0 s.a + maj32 s.a s.b s.c)
  ⟨w32 (t1 + t2), s.a, s.b, s.c, w32 (s.d + t1), s.e, s.f, s.g⟩

/-- One step of message-schedule extension; `rev` holds the schedule so far,
most recent word first. -/
def scheduleStep (rev : List Nat) : List Nat :=
  w32 (ssig1 (rev.getD 1 0) + rev.getD 6 0 + ssig0 (rev.getD 14 0) + rev.getD 15 0) :: rev

/-- Extend a 16-word block to the 64-word message schedule. -/
def sha256Schedule (block : List Nat) : List Nat :=
  (scheduleStep^[48] block.reverse).reverse

/-- Compress one 16-word block into the running state. -/
def sha256Compress (st : Sha256State) (block : List Nat) : Sha256State :=
  let t := (sha256K.zip (sha256Schedule block)).foldl sha256Round st
  ⟨w32 (st.a + t.a), w32 (st.b + t.b), w32 (st.c + t.c), w32 (st.d + t.d),
   w32 (st.e + t.e), w32 (st.f + t.f), w32 (st.g + t.g), w32 (st.h + t.h)⟩

/-- Big-endian 8-byte encoding of the message bit length. -/
def lenBytes64 (n : Nat) : List Nat :=
  [n / 2 ^ 56 % 256, n / 2 ^ 48 % 256, n / 2 ^ 40 % 256, n / 2 ^ 32 % 256,
   n / 2 ^ 24 % 256, n / 2 ^ 16 % 256, n / 2 ^ 8 % 256, n % 256]

/-- FIPS 180-4 padding: append `0x80`, zero bytes to 56 mod 64, then the
bit length. -/
def sha256Pad (msg : List Nat) : List Nat :=
  msg ++ 128 :: List.replicate ((64 + 56 - (msg.length + 1) % 64) % 64) 0
      ++ lenBytes64 (msg.length * 8)

/-- Group bytes into big-endian 32-bit words. -/
def bytesToWords : List Nat → List Nat
  | b0 :: b1 :: b2 :: b3 :: rest =>
      (b0 * 16777216 + b1 * 65536 + b2 * 256 + b3) :: bytesToWords rest
  | _ => []

/-- Split a word list into 16-word blocks; the fuel argument (instantiated
with the list length, which `drop 16` strictly decreases on nonempty lists)
only makes the recursion structural. -/
def toBlocksF : Nat → List Nat → List (List Nat)
  | _, [] => []
  | 0, _ => []
  | fuel + 1, w :: ws => ((w :: ws).take 16) :: toBlocksF fuel ((w :: ws).drop 16)

/-- Split a word list into 16-word blocks. -/
def toBlocks (l : List Nat) : List (List Nat) := toBlocksF l.length l

/-- Big-endian bytes of a 32-bit word. -/
def wordBytes (w : Nat) : List Nat :=
  [w / 16777216 % 256, w / 65536 % 256, w / 256 % 256, w % 256]

/-- The 32-byte digest encoded by a final state. -/
def stateBytes (s : Sha256State) : List Nat :=
  wordBytes s.a ++ wordBytes s.b ++ wordBytes s.c ++ wordBytes s.d ++
  wordBytes s.e ++ wordBytes s.f ++ wordBytes s.g ++ wordBytes s.h

/-- SHA-256 of a byte list, as 32 bytes. -/
def sha256Bytes (msg : List Nat) : List Nat :=
  stateBytes ((toBlocks (bytesToWords (sha256Pad msg))).foldl sha256Compress sha256Init)

/-! ## HMAC-SHA256 (model of `crypto.createHmac('sha256', key)`) -/

/-- RFC 2104 HMAC with SHA-256, block size 64. -/
def hmacSha256 (key msg : List Nat) : List Nat :=
  let k0 := if 64 < key.length then sha256Bytes key else key
  let kp := k0 ++ List.replicate (64 - k0.length) 0
  sha256Bytes (kp.map (fun b => Nat.xor b 92) ++
    sha256Bytes (kp.map (fun b => Nat.xor b 54) ++ msg))

/-! ## JavaScript strings

JavaScript strings are sequences of UTF-16 code units; we model them as
`List Nat` with every unit `< 2 ^ 16`. `jstr` injects a Lean string
literal (all literals appearing in the source are BMP text, where code
units and code points coincide). -/

/-- The code units of a Lean string literal, as a JS string model. -/
def jstr (s : String) : List Nat := s.data.map Char.toNat

/-! ## Hex encoding (model of `.digest('hex')`) -/

/-- Code unit of the lowercase hex digit for a nibble. -/
def hexDigit (n : Nat) : Nat :=
  if n < 10 then 48 + n else 87 + n

/-- The two lowercase hex code units of a byte. -/
def byteHex (b : Nat) : List Nat :=
  [hexDigit (b / 16 % 16), hexDigit (b % 16)]

/-- Lowercase hex string (as code units) of a byte list. -/
def bytesToHex (bs : List Nat) : List Nat :=
  (bs.map byteHex).flatten

/-! ## UTF-8 (node's `update(string)` encodes strings as UTF-8)

Encoding consumes UTF-16 code units, pairing surrogates; a lone surrogate
encodes as U+FFFD, as node does. -/

/-- UTF-8 bytes of one scalar code point. -/
def utf8Bytes (n : Nat) : List Nat :=
  if n < 128 then [n]
  else if n < 2048 then [192 + n / 64, 128 + n % 64]
  else if n < 65536 then [224 + n / 4096, 128 + n / 64 % 64, 128 + n % 64]
  else [240 + n / 262144, 128 + n / 4096 % 64, 128 + n / 64 % 64, 128 + n % 64]

/-- UTF-8 encoding of a UTF-16 code-unit sequence. -/
def utf8Encode : List Nat → List Nat
  | [] => []
  | [u] =>
    if u < 55296 ∨ 57343 < u then utf8Bytes u else utf8Bytes 65533
  | u :: u2 :: us =>
    if u < 55296 ∨ 57343 < u then utf8Bytes u ++ utf8Encode (u2 :: us)
    else if u < 56320 ∧ 56320 ≤ u2 ∧ u2 ≤ 57343 then
      utf8Bytes (65536 + (u - 55296) * 1024 + (u2 - 56320)) ++ utf8Encode us
    else utf8Bytes 65533 ++ utf8Encode (u2 :: us)

/-- UTF-8 decoding of a byte list into UTF-16 code units (astral code
points become surrogate pairs), one step per fuel unit. Malformed
sequences yield U+FFFD and resume after the offending lead byte, an
adequate rendering of WHATWG decoding for the claims at hand (every
payload the theorems touch is ASCII, where decoding is the identity). -/
def utf8DecodeF : Nat → List Nat → List Nat
  | 0, _ => []
  | _, [] => []
  | fuel + 1, b :: bs =>
    if b < 128 then b :: utf8DecodeF fuel bs
    else if 194 ≤ b ∧ b ≤ 223 then
      match bs with
      | b2 :: bs2 =>
        if 128 ≤ b2 ∧ b2 ≤ 191 then ((b - 192) * 64 + (b2 - 128)) :: utf8DecodeF fuel bs2
        else 65533 :: utf8DecodeF fuel bs
      | [] => [65533]
    else if 224 ≤ b ∧ b ≤ 239 then
      match bs with
      | b2 :: b3 :: bs3 =>
        if (128 ≤ b2 ∧ b2 ≤ 191) ∧ (128 ≤ b3 ∧ b3 ≤ 191) ∧
            (b = 224 → 160 ≤ b2) ∧ (b = 237 → b2 ≤ 159) then
          ((b - 224) * 4096 + (b2 - 128) * 64 + (b3 - 128)) :: utf8DecodeF fuel bs3
        else 65533 :: utf8DecodeF fuel bs
      | _ => [65533]
    else if 240 ≤ b ∧ b ≤ 244 then
      match bs with
      | b2 :: b3 :: b4 :: bs4 =>
        if (128 ≤ b2 ∧ b2 ≤ 191) ∧ (128 ≤ b3 ∧ b3 ≤ 191) ∧ (128 ≤ b4 ∧ b4 ≤ 191) ∧
            (b = 240 → 144 ≤ b2) ∧ (b = 244 → b2 ≤ 143) then
          let cp := (b - 240) * 262144 + (b2 - 128) * 4096 + (b3 - 128) * 64 + (b4 - 128)
          if cp < 65536 then cp :: utf8DecodeF fuel bs4
          else (55296 + (cp - 65536) / 1024) :: (56320 + (cp - 65536) % 1024) ::
            utf8DecodeF fuel bs4
        else 65533 :: utf8DecodeF fuel bs
      | _ => [65533]
    else 65533 :: utf8DecodeF fuel bs

/-- UTF-8 decode of a byte list. -/
def utf8Decode (bs : List Nat) : List Nat := utf8DecodeF bs.length bs

/-! ## `URLSearchParams` (WHATWG `application/x-www-form-urlencoded`)

The constructor UTF-8 encodes the input string, splits the bytes on `&`
dropping empty pieces, splits each piece at its first `=`, turns `+` into
space, percent-decodes, and UTF-8 decodes each name and value. It never
throws, and it preserves the order of the input pairs. -/

/-- Split a byte list on `&` (byte 38), keeping empty pieces. -/
def splitOnAmp : List Nat → List (List Nat)
  | [] => [[]]
  | b :: bs =>
    if b = 38 then [] :: splitOnAmp bs
    else
      match splitOnAmp bs with
      | [] => [[b]]
      | piece :: rest => (b :: piece) :: rest

/-- Split a byte list at its first `=` (byte 61): the name, and the value
(empty when there is no `=`). -/
def splitFirstEq : List Nat → List Nat × List Nat
  | [] => ([], [])
  | b :: bs =>
    if b = 61 then ([], bs)
    else
      let (n, v) := splitFirstEq bs
      (b :: n, v)

/-- Replace `+` (byte 43) with space (byte 32). -/
def plusToSpace (l : List Nat) : List Nat :=
  l.map fun b => if b = 43 then 32 else b

/-- Percent-decode: `%` followed by two hex digits becomes that byte;
anything else passes through (WHATWG decoding never fails). -/
def hexDigitVal (u : Nat) : Option Nat :=
  if 48 ≤ u ∧ u ≤ 57 then some (u - 48)
  else if 65 ≤ u ∧ u ≤ 70 then some (u - 55)
  else if 97 ≤ u ∧ u ≤ 102 then some (u - 87)
  else none

/-- Percent-decoding of a byte list. -/
def percentDecode : List Nat → List Nat
  | [] => []
  | [b] => [b]
  | [b, b2] => [b, b2]
  | b :: b2 :: b3 :: bs =>
    if b = 37 then
      match hexDigitVal b2, hexDigitVal b3 with
      | some h, some l => (h * 16 + l) :: percentDecode bs
      | _, _ => b :: percentDecode (b2 :: b3 :: bs)
    else b :: percentDecode (b2 :: b3 :: bs)

/-- Decode one name or value: `+`→space, percent-decode, UTF-8 decode. -/
def decodePiece (l : List Nat) : List Nat :=
  utf8Decode (percentDecode (plusToSpace l))

/-- Model of `new URLSearchParams(initData)`: the ordered list of decoded
name/value pairs. -/
def parseQuery (s : List Nat) : List (List Nat × List Nat) :=
  ((splitOnAmp (utf8Encode s)).filter (· ≠ [])).map fun piece =>
    let (n, v) := splitFirstEq piece
    (decodePiece n, decodePiece v)

/-- Model of `params.get(k)`: first value for the name, if any. -/
def getFirst (k : List Nat) : List (List Nat × List Nat) → Option (List Nat)
  | [] => none
  | p :: ps => if p.1 = k then some p.2 else getFirst k ps

/-- Model of `params.delete(k)`: remove every pair with the name. -/
def removeAll (k : List Nat) (l : List (List Nat × List Nat)) :
    List (List Nat × List Nat) :=
  l.filter fun p => p.1 ≠ k

/-! ## `String.prototype.localeCompare` under the default (root) locale

The source sorts keys with `keyA.localeCompare(keyB)`. Node's default
collation (ICU root) compares by primary weight first — punctuation
before digits before letters, letters case-insensitively — then breaks
ties by case (lowercase first). We model the weight table on the ASCII
printable repertoire (all keys the program meets are ASCII); units
outside it keep code-unit order among themselves, after ASCII letters.
The model omits features of full ICU root that never arise on that
repertoire — completely ignorable characters (e.g. most C0 controls)
and canonical equivalences, both of which make *distinct* strings
compare equal — so it is faithful only where no such unit occurs.
Accordingly, every theorem below whose truth rests on how keys compare
(C2's canonical-string agreement, C6's order invariance) carries the
hypothesis that keys are built solely from lowercase ASCII letters and
underscores, the repertoire of every real Telegram init-data key, on
which root collation provably coincides with byte-wise comparison and
collation-equality implies string equality. -/

/-- Primary collation weight of a code unit. -/
def primW (u : Nat) : Nat :=
  if u < 48 then u
  else if u ≤ 57 then 200 + (u - 48)
  else if u < 65 then u
  else if u ≤ 90 then 300 + (u - 65)
  else if u < 97 then u
  else if u ≤ 122 then 300 + (u - 97)
  else if u < 128 then u
  else 1000 + u

/-- Tertiary (case) collation weight of a code unit. -/
def tertW (u : Nat) : Nat :=
  if 65 ≤ u ∧ u ≤ 90 then 1 else 0

/-- Lexicographic comparison of two `Nat` lists, as a JS-style sign. -/
def lexCmpN : List Nat → List Nat → Int
  | [], [] => 0
  | [], _ :: _ => -1
  | _ :: _, [] => 1
  | a :: as, b :: bs =>
    if a < b then -1 else if b < a then 1 else lexCmpN as bs

/-- Model of `x.localeCompare(y)`: primary weights first, then case. -/
def localeCompare (x y : List Nat) : Int :=
  let p := lexCmpN (x.map primW) (y.map primW)
  if p = 0 then lexCmpN (x.map tertW) (y.map tertW) else p

/-! ## `Array.prototype.sort` (stable, as ES2019 requires) -/

/-- Insert into a sorted list, after every element the comparator places
at-or-before the new one (which is what keeps the sort stable). -/
def insertCmp (cmp : α → α → Int) (x : α) : List α → List α
  | [] => [x]
  | y :: ys => if cmp y x ≤ 0 then y :: insertCmp cmp x ys else x :: y :: ys

/-- Stable sort by a JS comparator. -/
def sortCmp (cmp : α → α → Int) (l : List α) : List α :=
  l.foldl (fun acc x => insertCmp cmp x acc) []

/-! ## `verifyTelegramInitData` (src/backend/src/utils/telegram.ts) -/

/-- Join code-unit lines with a single `\n` (unit 10), no trailing
newline: model of `.join('\n')` over `"{key}={value}"` lines. -/
def joinNL : List (List Nat) → List Nat
  | [] => []
  | [l] => l
  | l :: l2 :: ls => l ++ 10 :: joinNL (l2 :: ls)

/-- The `dataCheckString` of the source: `hash` already removed; sort the
entries by `localeCompare` on the keys, render `key=value` lines, join
with `\n`. -/
def dataCheckString (entries : List (List Nat × List Nat)) : List Nat :=
  joinNL (((sortCmp (fun a b => localeCompare a.1 b.1) entries).map
    fun p => p.1 ++ 61 :: p.2))

/-- The verifier after query parsing: extract `hash` (first occurrence;
reject when missing or empty, as `if (!hash)` does), delete all `hash`
entries, build the data-check string, and compare the hex HMAC-SHA256
under the key `SHA256(botToken)` with the extracted hash. -/
def verifyParams (params : List (List Nat × List Nat)) (botToken : List Nat) : Bool :=
  match getFirst (jstr "hash") params with
  | none => false
  | some hash =>
    if hash = [] then false
    else
      let dcs := dataCheckString (removeAll (jstr "hash") params)
      let secretKey := sha256Bytes (utf8Encode botToken)
      bytesToHex (hmacSha256 secretKey (utf8Encode dcs)) = hash

/-- `verifyTelegramInitData(initData, botToken)`: false on an empty
string (`if (!initData)`), otherwise parse and verify. -/
def verifyTelegramInitData (initData botToken : List Nat) : Bool :=
  if initData = [] then false
  else verifyParams (parseQuery initData) botToken

/-- The canonical string as the spec words it: remove `hash`, sort the
remaining keys in byte-wise (code-unit) lexicographic order of the key
strings, join `key=value` lines with `\n`, no trailing newline. Kept
separate from `dataCheckString` (which renders the source) so the two
can be compared. -/
def dataCheckStringSpec (entries : List (List Nat × List Nat)) : List Nat :=
  joinNL (((sortCmp (fun a b => lexCmpN a.1 b.1) entries).map
    fun p => p.1 ++ 61 :: p.2))

/-- JS exceptions a verifier step could in principle surface. -/
inductive JsErr where
  | typeError : JsErr
  | syntaxError : JsErr
deriving DecidableEq

/-- `verifyTelegramInitData` with each step in an exception monad,
recording which operations can throw: the `URLSearchParams` constructor,
`get`, `delete`, `entries`, comparator sort, string concatenation and
node's hash/hmac over strings are all total, so every step is pure — the
only JSON-parsing call of the module (which can throw) lives in
`parseTelegramUser`, behind its own `try`. -/
def verifyE (initData botToken : List Nat) : Except JsErr Bool :=
  if initData = [] then Except.ok false
  else
    let params := parseQuery initData
    match getFirst (jstr "hash") params with
    | none => Except.ok false
    | some hash =>
      if hash = [] then Except.ok false
      else
        let dcs := dataCheckString (removeAll (jstr "hash") params)
        let secretKey := sha256Bytes (utf8Encode botToken)
        Except.ok (bytesToHex (hmacSha256 secretKey (utf8Encode dcs)) = hash)

/-! ## JSON values and `JSON.parse`

`parseTelegramUser` runs `JSON.parse` on the `user` field and returns the
result *unvalidated* (`as TelegramWebAppUser` is a compile-time cast).
JSON numbers are modelled as exact integers — the only numbers the
identity schema carries are Telegram ids, integral and within the exact
range — so fraction/exponent literals are outside the model. -/

inductive Json where
  | null : Json
  | bool (b : Bool) : Json
  | num (n : Int) : Json
  | str (s : List Nat) : Json
  | arr (xs : List Json) : Json
  | obj (fields : List (List Nat × Json)) : Json

/-- Whitespace per JSON: space, tab, line feed, carriage return. -/
def jsonWs (u : Nat) : Bool := u = 32 ∨ u = 9 ∨ u = 10 ∨ u = 13

/-- Drop leading JSON whitespace. -/
def skipWs : List Nat → List Nat
  | [] => []
  | u :: us => if jsonWs u then skipWs us else u :: us

/-- Strip a literal token from the front. -/
def dropLit : List Nat → List Nat → Option (List Nat)
  | [], s => some s
  | _ :: _, [] => none
  | t :: ts, u :: us => if u = t then dropLit ts us else none

/-- Parse the body of a JSON string after the opening quote; fuel is one
unit per consumed input unit. -/
def parseStrBody : Nat → List Nat → Option (List Nat × List Nat)
  | 0, _ => none
  | _, [] => none
  | fuel + 1, u :: us =>
    if u = 34 then some ([], us)
    else if u = 92 then
      match us with
      | [] => none
      | e :: us2 =>
        if e = 34 ∨ e = 92 ∨ e = 47 then
          (parseStrBody fuel us2).map fun (s, r) => (e :: s, r)
        else if e = 98 then (parseStrBody fuel us2).map fun (s, r) => (8 :: s, r)
        else if e = 102 then (parseStrBody fuel us2).map fun (s, r) => (12 :: s, r)
        else if e = 110 then (parseStrBody fuel us2).map fun (s, r) => (10 :: s, r)
        else if e = 114 then (parseStrBody fuel us2).map fun (s, r) => (13 :: s, r)
        else if e = 116 then (parseStrBody fuel us2).map fun (s, r) => (9 :: s, r)
        else if e = 117 then
          match us2 with
          | h1 :: h2 :: h3 :: h4 :: us3 =>
            match hexDigitVal h1, hexDigitVal h2, hexDigitVal h3, hexDigitVal h4 with
            | some a, some b, some c, some d =>
              (parseStrBody fuel us3).map fun (s, r) =>
                ((a * 4096 + b * 256 + c * 16 + d) :: s, r)
            | _, _, _, _ => none
          | _ => none
        else none
    else if u < 32 then none
    else (parseStrBody fuel us).map fun (s, r) => (u :: s, r)

/-- Parse a run of decimal digits (at least one). -/
def parseDigits : List Nat → Option (Nat × List Nat)
  | [] => none
  | u :: us =>
    if 48 ≤ u ∧ u ≤ 57 then
      match parseDigitsRest (u - 48) us with
      | (n, r) => some (n, r)
    else none
where
  /-- Extend a digit accumulator through the remaining digits. -/
  parseDigitsRest (acc : Nat) : List Nat → Nat × List Nat
    | [] => (acc, [])
    | u :: us =>
      if 48 ≤ u ∧ u ≤ 57 then parseDigitsRest (acc * 10 + (u - 48)) us
      else (acc, u :: us)

/-- Parse a JSON integer literal (optional minus; no leading zeros;
fraction/exponent forms are outside the model). -/
def parseIntLit (l : List Nat) : Option (Int × List Nat) :=
  match l with
  | 45 :: rest =>
    (parseNat rest).map fun (n, r) => (-(n : Int), r)
  | rest => (parseNat rest).map fun (n, r) => ((n : Int), r)
where
  /-- A natural literal: `0`, or a nonzero digit followed by digits. -/
  parseNat (l : List Nat) : Option (Nat × List Nat) :=
    match l with
    | 48 :: rest =>
      match rest with
      | u :: _ => if 48 ≤ u ∧ u ≤ 57 then none else some (0, rest)
      | [] => some (0, [])
    | _ => match parseDigits l with
      | some (n, r) =>
        match r with
        | u :: _ => if u = 46 ∨ u = 101 ∨ u = 69 then none else some (n, r)
        | [] => some (n, r)
      | none => none

mutual

/-- Parse one JSON value; fuel bounds the recursion depth. -/
def parseVal : Nat → List Nat → Option (Json × List Nat)
  | 0, _ => none
  | fuel + 1, l =>
    match skipWs l with
    | [] => none
    | u :: us =>
      if u = 110 then (dropLit (jstr "ull") us).map fun r => (Json.null, r)
      else if u = 116 then (dropLit (jstr "rue") us).map fun r => (Json.bool true, r)
      else if u = 102 then (dropLit (jstr "alse") us).map fun r => (Json.bool false, r)
      else if u = 34 then
        (parseStrBody us.length us).map fun (s, r) => (Json.str s, r)
      else if u = 123 then
        match skipWs us with
        | 125 :: r => some (Json.obj [], r)
        | rest => (parseMembers fuel rest).map fun (fs, r) => (Json.obj fs, r)
      else if u = 91 then
        match skipWs us with
        | 93 :: r => some (Json.arr [], r)
        | rest => (parseElems fuel rest).map fun (xs, r) => (Json.arr xs, r)
      else (parseIntLit (u :: us)).map fun (n, r) => (Json.num n, r)

/-- Parse `string : value (, string : value)*` then `}`. -/
def parseMembers : Nat → List Nat → Option (List (List Nat × Json) × List Nat)
  | 0, _ => none
  | fuel + 1, l =>
    match skipWs l with
    | 34 :: us =>
      match parseStrBody us.length us with
      | none => none
      | some (k, r) =>
        match skipWs r with
        | 58 :: r2 =>
          match parseVal fuel r2 with
          | none => none
          | some (v, r3) =>
            match skipWs r3 with
            | 44 :: r4 => (parseMembers fuel r4).map fun (fs, r5) => ((k, v) :: fs, r5)
            | 125 :: r4 => some ([(k, v)], r4)
            | _ => none
        | _ => none
    | _ => none

/-- Parse `value (, value)*` then `]`. -/
def parseElems : Nat → List Nat → Option (List Json × List Nat)
  | 0, _ => none
  | fuel + 1, l =>
    match parseVal fuel l with
    | none => none
    | some (v, r) =>
      match skipWs r with
      | 44 :: r2 => (parseElems fuel r2).map fun (xs, r3) => (v :: xs, r3)
      | 93 :: r2 => some ([v], r2)
      | _ => none

end

/-- Model of `JSON.parse`: parse one value, require only whitespace
after it. -/
def jsonParse (s : List Nat) : Option Json :=
  match parseVal (s.length + 1) s with
  | some (v, r) => if skipWs r = [] then some v else none
  | none => none

/-! ## `parseTelegramUser` (src/backend/src/utils/telegram.ts)

Returns the JS value the middleware receives: `null` when the `user`
field is missing or empty (`if (!rawUser)`), `null` when `JSON.parse`
throws, otherwise the parsed value — which may itself be any JSON value,
since the `as TelegramWebAppUser` cast validates nothing. -/
def parseTelegramUser (initData : List Nat) : Json :=
  match getFirst (jstr "user") (parseQuery initData) with
  | none => Json.null
  | some rawUser =>
    if rawUser = [] then Json.null
    else
      match jsonParse rawUser with
      | some v => v
      | none => Json.null

/-! ## JavaScript value operations used by the middleware -/

/-- JS truthiness of a JSON value (`if (!telegramUser)`). -/
def truthy : Json → Bool
  | Json.null => false
  | Json.bool b => b
  | Json.num n => n ≠ 0
  | Json.str s => s ≠ []
  | Json.arr _ => true
  | Json.obj _ => true

/-- Property access `v[k]`: on an object the last binding wins (as
`JSON.parse` assigns duplicate keys in order); on any non-object the
property is absent (`undefined`) — except that access on `null` throws,
which the call sites below handle. -/
def jsField (v : Json) (k : List Nat) : Option Json :=
  match v with
  | Json.obj fs => ((fs.filter fun p => p.1 = k).map Prod.snd).getLast?
  | _ => none

/-- Decimal code units of `n.toString()` for a natural number; the fuel
(one digit per unit) makes the recursion structural. -/
def natDigitsF : Nat → Nat → List Nat
  | 0, _ => []
  | _, 0 => []
  | fuel + 1, n => natDigitsF fuel (n / 10) ++ [48 + n % 10]

/-- Decimal code units of a natural number. -/
def natToUnits (n : Nat) : List Nat :=
  if n = 0 then [48] else natDigitsF n n

/-- Decimal code units of an integer. -/
def intToUnits (i : Int) : List Nat :=
  if i < 0 then 45 :: natToUnits i.natAbs else natToUnits i.natAbs

mutual

/-- JS `String(v)` / `v.toString()` for a non-null, non-undefined value:
numbers in decimal, strings as-is, booleans as words, arrays joined by
commas, objects as `[object Object]`. The call sites below never reach
the `null` case at top level (ids of `null` throw first); inside an
array a `null` element renders empty, which the `null` case provides. -/
def jsToString : Json → List Nat
  | Json.null => []
  | Json.bool true => jstr "true"
  | Json.bool false => jstr "false"
  | Json.num n => intToUnits n
  | Json.str s => s
  | Json.arr xs => jsArrToString xs
  | Json.obj _ => jstr "[object Object]"

/-- `Array.prototype.toString`: elements joined by `,` (unit 44). -/
def jsArrToString : List Json → List Nat
  | [] => []
  | [x] => jsToString x
  | x :: y :: ys => jsToString x ++ 44 :: jsArrToString (y :: ys)

end

/-- `telegramUser.id.toString()`: absent (`undefined`) or `null` ids
throw a `TypeError`; any other value stringifies. -/
def jsGetId (v : Json) : Option (List Nat) :=
  match jsField v (jstr "id") with
  | none => none
  | some Json.null => none
  | some x => some (jsToString x)

/-- Value of `telegramUser.<k> ?? null` as handed to a nullable Prisma
`String` column: `undefined`/`null` collapse to `null`, a string passes
through, and any other JSON value is rejected by the Prisma client's
runtime validation (the write then fails). -/
inductive MirrorVal where
  | null : MirrorVal
  | str (s : List Nat) : MirrorVal
  | invalid : MirrorVal
deriving DecidableEq

/-- Extract one mirrored profile field from the parsed user value. -/
def mirrorOf (v : Json) (k : List Nat) : MirrorVal :=
  match jsField v k with
  | none => MirrorVal.null
  | some Json.null => MirrorVal.null
  | some (Json.str s) => MirrorVal.str s
  | some _ => MirrorVal.invalid

/-- The database value of a valid mirror field. -/
def mirrorToDb : MirrorVal → Option (List Nat)
  | MirrorVal.null => none
  | MirrorVal.str s => some s
  | MirrorVal.invalid => none

/-! ## The persistence store (Prisma `User`/`Admin` tables)

Fields follow the migrations under `src/backend/prisma/migrations`
(`telegramId` unique; profile, payout, moderation columns). `createdAt`
and `updatedAt` (real-time values maintained by triggers) are outside the
model. `isPartner` and `commissionPercent` are *Modelled from the spec:*
the Prisma schema file itself is not under src/, and the spec's
"partner/commission fields" (§3) appear in the frontend's `ApiUser`
type as `isPartner`/`commissionPercent`. -/

structure UserRecord where
  id : List Nat
  telegramId : List Nat
  username : Option (List Nat)
  firstName : Option (List Nat)
  lastName : Option (List Nat)
  languageCode : Option (List Nat)
  photoUrl : Option (List Nat)
  phone : Option (List Nat)
  bio : Option (List Nat)
  payoutUsdtTrc20 : Option (List Nat)
  payoutUsdtBep20 : Option (List Nat)
  chatId : Option (List Nat)
  mutedUntil : Option Nat
  isBlocked : Bool
  blockReason : Option (List Nat)
  isPartner : Bool
  commissionPercent : Option Int
deriving DecidableEq

/-- An `Admin` row (the AdminGrant of the spec). -/
structure AdminRecord where
  telegramId : List Nat
  displayName : Option (List Nat)
  notes : Option (List Nat)
deriving DecidableEq

/-- The store: both tables plus a counter feeding fresh primary keys.
*Modelled from the spec:* primary-key generation (Prisma's `cuid()`
default lives in the schema file, not under src/) is any injective
id supply; a counter-indexed one. -/
structure Store where
  users : List UserRecord
  admins : List AdminRecord
  nextId : Nat
deriving DecidableEq

/-- Unique-key lookup on `User.telegramId`. -/
def findUserByTgId (st : Store) (tid : List Nat) : Option UserRecord :=
  st.users.find? fun u => u.telegramId = tid

/-- A fresh primary key. -/
def freshId (st : Store) : List Nat := jstr "u" ++ natToUnits st.nextId

/-- The mirrored profile fields written by `telegramAuth`'s upsert. -/
structure MirrorFields where
  username : Option (List Nat)
  firstName : Option (List Nat)
  lastName : Option (List Nat)
  languageCode : Option (List Nat)
  photoUrl : Option (List Nat)
deriving DecidableEq

/-- The mirror fields the middleware extracts from the parsed user value
(`telegramUser.<field> ?? null` for the five mirrored columns). -/
def mirrorFieldsOf (v : Json) : MirrorFields :=
  ⟨mirrorToDb (mirrorOf v (jstr "username")),
   mirrorToDb (mirrorOf v (jstr "first_name")),
   mirrorToDb (mirrorOf v (jstr "last_name")),
   mirrorToDb (mirrorOf v (jstr "language_code")),
   mirrorToDb (mirrorOf v (jstr "photo_url"))⟩

/-- The upsert's `update` record applied to a row: exactly the five
mirror columns are rewritten. -/
def applyMirror (u : UserRecord) (m : MirrorFields) : UserRecord :=
  { u with username := m.username, firstName := m.firstName,
           lastName := m.lastName, languageCode := m.languageCode,
           photoUrl := m.photoUrl }

/-- The upsert's `create` record: the key, the five mirror columns, and
defaults everywhere else. -/
def createUser (st : Store) (tid : List Nat) (m : MirrorFields) : UserRecord :=
  ⟨freshId st, tid, m.username, m.firstName, m.lastName,
   m.languageCode, m.photoUrl, none, none, none, none, none,
   none, false, none, false, none⟩

/-- `prisma.user.upsert({ where: { telegramId }, create, update })` as a
single atomic store action (the `where` is on the unique `telegramId`
key, for which Prisma issues a database-level insert-or-update-on-
conflict). `create` sets the key and the five mirror fields, all other
columns to their defaults; `update` rewrites exactly the five mirror
fields of the existing row. Returns the resulting row and store. -/
def userUpsert (st : Store) (tid : List Nat) (m : MirrorFields) :
    UserRecord × Store :=
  match findUserByTgId st tid with
  | some _ =>
    let upd := fun (u : UserRecord) =>
      if u.telegramId = tid then applyMirror u m else u
    let st' : Store := { st with users := st.users.map upd }
    let row := match findUserByTgId st' tid with
      | some u' => u'
      | none => createUser st tid m
    (row, st')
  | none =>
    let u := createUser st tid m
    (u, { st with users := st.users ++ [u], nextId := st.nextId + 1 })

/-- `prisma.admin.findUnique({ where: { telegramId } })`. -/
def findAdminByTgId (st : Store) (tid : List Nat) : Option AdminRecord :=
  st.admins.find? fun a => a.telegramId = tid

/-! ## The middleware (`telegramAuth`) and the app error handler -/

/-- A JSON error body as the routes produce them. -/
inductive RespBody where
  | errMsg (msg : List Nat) : RespBody
  | validationErr : RespBody
deriving DecidableEq

/-- An HTTP response as far as the claims observe it. -/
structure Response where
  status : Nat
  body : RespBody
deriving DecidableEq

/-- Errors that can reach `next(error)` from the middleware: a Prisma
infrastructure failure (connection/timeout), the Prisma client's runtime
validation rejection, a thrown JS `TypeError`, and (from routes, for the
error handler's other branch) a Zod validation error. -/
inductive AppError where
  | prismaDb : AppError
  | prismaValidation : AppError
  | jsTypeError : AppError
  | zod : AppError
deriving DecidableEq

/-- The `createApp` error handler: `ZodError`s become 400 with details;
everything else becomes `500 { error: 'Internal server error' }`. -/
def errorHandler : AppError → Response
  | AppError.zod => ⟨400, RespBody.validationErr⟩
  | _ => ⟨500, RespBody.errMsg (jstr "Internal server error")⟩

/-- `req.context` as attached by the middleware. -/
structure RequestContext where
  telegramUser : Json
  user : UserRecord
  admin : Option AdminRecord

/-- What one request observes of the middleware: a response (it never
called `next()` bare), or control passed on with a context and the store
it left behind. -/
inductive AuthOutcome where
  | respond (r : Response) : AuthOutcome
  | proceed (ctx : RequestContext) (st : Store) : AuthOutcome

/-- The `telegramAuth` middleware for one request. `header` is the
`x-telegram-init-data` header (absent or its string); `dbFault = true`
makes the Prisma calls reject with an infrastructure error
(`AppError.prismaDb`) — the `catch` forwards any thrown or rejected
error to the error handler. Mirrors the source cascade: missing/empty
header → 401; failed verification → 401; falsy parsed user → 401; then
`telegramUser.id` stringification (throws on absent/null id),
mirror-field extraction (Prisma validation rejects non-string values),
upsert, admin lookup, and the attached context. -/
def telegramAuth (header : Option (List Nat)) (botToken : List Nat)
    (st : Store) (dbFault : Bool) : AuthOutcome :=
  match header with
  | none => AuthOutcome.respond ⟨401, RespBody.errMsg (jstr "Missing Telegram init data")⟩
  | some initData =>
    if initData = [] then
      AuthOutcome.respond ⟨401, RespBody.errMsg (jstr "Missing Telegram init data")⟩
    else if verifyTelegramInitData initData botToken = false then
      AuthOutcome.respond ⟨401, RespBody.errMsg (jstr "Invalid Telegram init data")⟩
    else
      let telegramUser := parseTelegramUser initData
      if truthy telegramUser = false then
        AuthOutcome.respond ⟨401, RespBody.errMsg (jstr "Invalid Telegram user payload")⟩
      else
        match jsGetId telegramUser with
        | none => AuthOutcome.respond (errorHandler AppError.jsTypeError)
        | some telegramId =>
          let mu := mirrorOf telegramUser (jstr "username")
          let mf := mirrorOf telegramUser (jstr "first_name")
          let ml := mirrorOf telegramUser (jstr "last_name")
          let mc := mirrorOf telegramUser (jstr "language_code")
          let mp := mirrorOf telegramUser (jstr "photo_url")
          if mu = MirrorVal.invalid ∨ mf = MirrorVal.invalid ∨ ml = MirrorVal.invalid ∨
              mc = MirrorVal.invalid ∨ mp = MirrorVal.invalid then
            AuthOutcome.respond (errorHandler AppError.prismaValidation)
          else if dbFault then
            AuthOutcome.respond (errorHandler AppError.prismaDb)
          else
            let (userRecord, st') := userUpsert st telegramId (mirrorFieldsOf telegramUser)
            let adminRecord := findAdminByTgId st' telegramId
            AuthOutcome.proceed ⟨telegramUser, userRecord, adminRecord⟩ st'

/-! ## Concurrency model for two first-contact requests

Each authenticate call performs exactly one store *write* (the atomic
upsert, spec §5: a single conditional write) and one read. Reads do not
change the store, so an interleaving of two calls is determined by the
order of the two upserts; `ord` picks it. Returned is each call's row
and the final store. -/
def concurrentUpserts (ord : Bool) (st : Store) (tid : List Nat)
    (m1 m2 : MirrorFields) : UserRecord × UserRecord × Store :=
  if ord then
    let (u1, st1) := userUpsert st tid m1
    let (u2, st2) := userUpsert st1 tid m2
    (u1, u2, st2)
  else
    let (u2, st1) := userUpsert st tid m2
    let (u1, st2) := userUpsert st1 tid m1
    (u1, u2, st2)

/-- How many `User` rows carry a Telegram id. -/
def countUsersWithTgId (st : Store) (tid : List Nat) : Nat :=
  (st.users.filter fun u => u.telegramId = tid).length

/-! ## The identity schema (for the claims about shape validation)

*Modelled from the spec:* `TelegramWebAppUser` (src/backend/src/types/
telegram.ts is not under src/); per spec §3 a TelegramIdentity is an
object with a numeric id and optional string username, first/last name,
language code and photo URL. -/

/-- Does a JSON value conform to the `TelegramWebAppUser` schema? -/
def isIdentityShape : Json → Bool
  | Json.obj fs =>
    (match ((fs.filter fun p => p.1 = jstr "id").map Prod.snd).getLast? with
     | some (Json.num _) => true
     | _ => false) &&
    (fs.all fun p =>
      if p.1 = jstr "id" then true
      else if p.1 = jstr "username" ∨ p.1 = jstr "first_name" ∨ p.1 = jstr "last_name" ∨
          p.1 = jstr "language_code" ∨ p.1 = jstr "photo_url" then
        match p.2 with
        | Json.str _ => true
        | _ => false
      else false)
  | _ => false

/-! # Sanity anchors

The SHA-256/HMAC embedding reproduces the published test vectors, tying
the model to the algorithms `createHash('sha256')`/`createHmac` name. -/

/-- FIPS 180-4 vector: SHA-256 of `"abc"`. -/
theorem sha256_abc_vector :
    bytesToHex (sha256Bytes (utf8Encode (jstr "abc"))) =
      jstr "ba7816bf8f01cfea414140de5dae2223b00361a396177a9cb410ff61f20015ad" := by
  decide

/-- RFC 4231-style vector: HMAC-SHA256 with key `"key"` of the fox
sentence. -/
theorem hmac_fox_vector :
    bytesToHex (hmacSha256 (utf8Encode (jstr "key"))
        (utf8Encode (jstr "The quick brown fox jumps over the lazy dog"))) =
      jstr "f7bc83f430538424b13298e6aa6fb143ef4d59a14946175997479dbc2d1a3cd8" := by
  decide

/-! # Claim C7 — `verify` is total and pure -/

/-- C7: `verify` is a total, side-effect-free function of
`(payload, secret)`: its exception-annotated rendering `verifyE` returns
`ok` on every input (never a thrown error), and it returns `false` — not
an exception — on the empty string, on payloads with no `hash` field,
and on payloads whose `hash` field is empty. -/
theorem claim_C7_verify_total :
    ∀ (initData botToken : List Nat),
    verifyE initData botToken = Except.ok (verifyTelegramInitData initData botToken) ∧
    (initData = [] → verifyTelegramInitData initData botToken = false) ∧
    (getFirst (jstr "hash") (parseQuery initData) = none →
      verifyTelegramInitData initData botToken = false) ∧
    (getFirst (jstr "hash") (parseQuery initData) = some [] →
      verifyTelegramInitData initData botToken = false) := by
  intro s t
  unfold verifyE verifyTelegramInitData verifyParams
  by_cases hs : s = [] <;> simp [hs]
  cases hg : getFirst (jstr "hash") (parseQuery s) with
  | none => simp
  | some h => by_cases hh : h = [] <;> simp [hh]

/-- C7 witness: the guarantees evaluated on the malformed inputs `""`,
`"not&a=payload"` (no hash) and `"hash="` (empty hash), under secret
`"token"`. -/
theorem claim_C7_verify_total_witness :
    verifyE [] (jstr "token") = Except.ok false ∧
    verifyTelegramInitData [] (jstr "token") = false ∧
    verifyTelegramInitData (jstr "not&a=payload") (jstr "token") = false ∧
    verifyTelegramInitData (jstr "hash=") (jstr "token") = false :=
  ⟨(claim_C7_verify_total [] (jstr "token")).1.trans
      (congrArg Except.ok ((claim_C7_verify_total [] (jstr "token")).2.1 rfl)),
   (claim_C7_verify_total [] (jstr "token")).2.1 rfl,
   (claim_C7_verify_total (jstr "not&a=payload") (jstr "token")).2.2.1 (by decide),
   (claim_C7_verify_total (jstr "hash=") (jstr "token")).2.2.2 (by decide)⟩

/-! # Claim C8 — `extractIdentity` decodes without validating -/

/-- C8 counterexample: the payload `user=%7B%7D` carries the valid JSON
`{}`, which does not match the identity schema; the claim says
extraction must then be absent (fail-closed), but `parseTelegramUser`
returns the malformed object `{}` — not absent. -/
theorem claim_C8_counterexample :
    parseTelegramUser (jstr "user=%7B%7D") = Json.obj [] ∧
    isIdentityShape (Json.obj []) = false ∧ Json.obj [] ≠ Json.null :=
  ⟨rfl, rfl, fun h => Json.noConfusion h⟩

/-- C8 as amended: `parseTelegramUser` returns absent (JS `null`) when
the `user` field is missing, empty, or not valid JSON; any successfully
parsed JSON value — schema-conformant or not — is returned unvalidated;
and the result depends only on the `user` field, hence is independent of
the payload's hash/signature validity. -/
theorem claim_C8_extract_unvalidated :
    ∀ s : List Nat,
    (getFirst (jstr "user") (parseQuery s) = none → parseTelegramUser s = Json.null) ∧
    (getFirst (jstr "user") (parseQuery s) = some [] → parseTelegramUser s = Json.null) ∧
    (∀ raw, getFirst (jstr "user") (parseQuery s) = some raw → raw ≠ [] →
      jsonParse raw = none → parseTelegramUser s = Json.null) ∧
    (∀ raw v, getFirst (jstr "user") (parseQuery s) = some raw → raw ≠ [] →
      jsonParse raw = some v → parseTelegramUser s = v) ∧
    (∀ s2, getFirst (jstr "user") (parseQuery s) = getFirst (jstr "user") (parseQuery s2) →
      parseTelegramUser s = parseTelegramUser s2) := by
  intro s
  refine ⟨?_, ?_, ?_, ?_, ?_⟩ <;> unfold parseTelegramUser
  · intro h; simp [h]
  · intro h; simp [h]
  · intro raw h hne hp; simp [h, hne, hp]
  · intro raw v h hne hp; simp [h, hne, hp]
  · intro s2 h; rw [h]

/-- C8 witness: on `user=%7B%22id%22%3A7%7D` (valid identity JSON,
unsigned) extraction returns the structured identity `{id: 7}`. -/
theorem claim_C8_extract_unvalidated_witness :
    parseTelegramUser (jstr "user=%7B%22id%22%3A7%7D") = Json.obj [(jstr "id", Json.num 7)] :=
  (claim_C8_extract_unvalidated (jstr "user=%7B%22id%22%3A7%7D")).2.2.2.1
    (jstr "\x7b\"id\":7\x7d") (Json.obj [(jstr "id", Json.num 7)]) rfl (by decide) rfl

/-! # Claim C5 — Missing vs InvalidSignature responses -/

/-- C5 counterexample: a request with no init-data header and a request
whose payload fails verification both get HTTP 401, but the bodies
differ (`Missing Telegram init data` vs `Invalid Telegram init data`),
so the two responses are *not* identical as the claim states. -/
theorem claim_C5_counterexample :
    telegramAuth none (jstr "token") ⟨[], [], 0⟩ false =
      AuthOutcome.respond ⟨401, RespBody.errMsg (jstr "Missing Telegram init data")⟩ ∧
    telegramAuth (some (jstr "hash=00")) (jstr "token") ⟨[], [], 0⟩ false =
      AuthOutcome.respond ⟨401, RespBody.errMsg (jstr "Invalid Telegram init data")⟩ ∧
    (⟨401, RespBody.errMsg (jstr "Missing Telegram init data")⟩ : Response) ≠
      ⟨401, RespBody.errMsg (jstr "Invalid Telegram init data")⟩ :=
  ⟨rfl, rfl, by decide⟩

/-- C5 as amended: for every missing-header request and every request
failing signature verification, the responses share status 401, but
their bodies are the distinct fixed strings `Missing Telegram init
data` and `Invalid Telegram init data`, so the responses differ and the
caller can distinguish the failure reason. -/
theorem claim_C5_distinct_bodies :
    ∀ (tok : List Nat) (st : Store) (fault : Bool) (d : List Nat),
    d ≠ [] → verifyTelegramInitData d tok = false →
    ∃ r1 r2 : Response,
      telegramAuth none tok st fault = AuthOutcome.respond r1 ∧
      telegramAuth (some d) tok st fault = AuthOutcome.respond r2 ∧
      r1.status = 401 ∧ r2.status = 401 ∧
      r1.body = RespBody.errMsg (jstr "Missing Telegram init data") ∧
      r2.body = RespBody.errMsg (jstr "Invalid Telegram init data") ∧ r1 ≠ r2 := by
  intro tok st fault d hne hv
  refine ⟨⟨401, RespBody.errMsg (jstr "Missing Telegram init data")⟩,
    ⟨401, RespBody.errMsg (jstr "Invalid Telegram init data")⟩,
    rfl, ?_, rfl, rfl, rfl, rfl, by decide⟩
  unfold telegramAuth
  simp [hne, hv]

/-- C5 witness: the amended statement at the concrete failing payload
`hash=00` under secret `token` against an empty store. -/
theorem claim_C5_distinct_bodies_witness :
    ∃ r1 r2 : Response,
      telegramAuth none (jstr "token") ⟨[], [], 0⟩ false = AuthOutcome.respond r1 ∧
      telegramAuth (some (jstr "hash=00")) (jstr "token") ⟨[], [], 0⟩ false =
        AuthOutcome.respond r2 ∧
      r1.status = 401 ∧ r2.status = 401 ∧
      r1.body = RespBody.errMsg (jstr "Missing Telegram init data") ∧
      r2.body = RespBody.errMsg (jstr "Invalid Telegram init data") ∧ r1 ≠ r2 :=
  claim_C5_distinct_bodies (jstr "token") ⟨[], [], 0⟩ false (jstr "hash=00")
    (by decide) (by decide)

/-! # Store lemmas for the upsert -/


theorem find?_map_upd (tid : List Nat) (m : MirrorFields) (l : List UserRecord)
    (u0 : UserRecord) (h : l.find? (fun u => u.telegramId = tid) = some u0) :
    (l.map fun u => if u.telegramId = tid then applyMirror u m else u).find?
      (fun u => u.telegramId = tid) = some (applyMirror u0 m) := by
  induction l with
  | nil => simp at h
  | cons x xs ih =>
    by_cases hx : x.telegramId = tid
    · rw [List.find?_cons_of_pos _ (by simp [hx])] at h
      injection h with h
      subst h
      rw [List.map_cons, if_pos hx]
      rw [List.find?_cons_of_pos _ (by simp [applyMirror, hx])]
    · rw [List.find?_cons_of_neg _ (by simp [hx])] at h
      rw [List.map_cons, if_neg hx]
      rw [List.find?_cons_of_neg _ (by simp [hx])]
      exact ih h

theorem find?_append_none {α} (p : α → Bool) (l1 l2 : List α)
    (h : l1.find? p = none) : (l1 ++ l2).find? p = l2.find? p := by
  induction l1 with
  | nil => rfl
  | cons x xs ih =>
    cases hp : p x with
    | true =>
      rw [List.find?_cons_of_pos _ hp] at h
      exact absurd h (by simp)
    | false =>
      rw [List.find?_cons_of_neg _ (by simp [hp])] at h
      rw [List.cons_append, List.find?_cons_of_neg _ (by simp [hp])]
      exact ih h

theorem userUpsert_existing (st : Store) (tid : List Nat) (m : MirrorFields)
    (u0 : UserRecord) (h : findUserByTgId st tid = some u0) :
    (userUpsert st tid m).1 = applyMirror u0 m ∧
    (userUpsert st tid m).2.users =
      st.users.map (fun u => if u.telegramId = tid then applyMirror u m else u) ∧
    (userUpsert st tid m).2.admins = st.admins ∧
    (userUpsert st tid m).2.nextId = st.nextId := by
  have h' : List.find? (fun u => u.telegramId = tid) st.users = some u0 := by
    simpa [findUserByTgId] using h
  have h2 := find?_map_upd tid m st.users u0 h'
  simp only [userUpsert, findUserByTgId, h', h2]
  exact ⟨trivial, trivial, trivial, trivial⟩

theorem userUpsert_fresh (st : Store) (tid : List Nat) (m : MirrorFields)
    (h : findUserByTgId st tid = none) :
    (userUpsert st tid m).1 = createUser st tid m ∧
    (userUpsert st tid m).2.users = st.users ++ [createUser st tid m] ∧
    (userUpsert st tid m).2.admins = st.admins := by
  simp only [userUpsert, h]
  exact ⟨trivial, trivial, trivial⟩

theorem userUpsert_row (st : Store) (tid : List Nat) (m : MirrorFields) :
    (userUpsert st tid m).1.telegramId = tid ∧
    (userUpsert st tid m).1.username = m.username ∧
    (userUpsert st tid m).1.firstName = m.firstName ∧
    (userUpsert st tid m).1.lastName = m.lastName ∧
    (userUpsert st tid m).1.languageCode = m.languageCode ∧
    (userUpsert st tid m).1.photoUrl = m.photoUrl ∧
    findUserByTgId (userUpsert st tid m).2 tid = some (userUpsert st tid m).1 := by
  cases h : findUserByTgId st tid with
  | some u0 =>
    obtain ⟨h1, h2, -, -⟩ := userUpsert_existing st tid m u0 h
    have h' : List.find? (fun u => u.telegramId = tid) st.users = some u0 := by
      simpa [findUserByTgId] using h
    have hfind : findUserByTgId (userUpsert st tid m).2 tid = some (applyMirror u0 m) := by
      unfold findUserByTgId
      rw [h2]
      exact find?_map_upd tid m st.users u0 h'
    have htid : u0.telegramId = tid := by
      have := List.find?_some h'
      simpa using this
    rw [h1, hfind]
    refine ⟨by simp [applyMirror, htid], rfl, rfl, rfl, rfl, rfl, rfl⟩
  | none =>
    obtain ⟨h1, h2, -⟩ := userUpsert_fresh st tid m h
    have hfind : findUserByTgId (userUpsert st tid m).2 tid = some (createUser st tid m) := by
      unfold findUserByTgId
      rw [h2]
      rw [find?_append_none _ _ _ (by simpa [findUserByTgId] using h)]
      simp [createUser, List.find?]
    rw [h1, hfind]
    exact ⟨rfl, rfl, rfl, rfl, rfl, rfl, rfl⟩


/-! # Inversion of the middleware cascade -/


theorem telegramAuth_proceed_inv {header : Option (List Nat)} {tok : List Nat}
    {st : Store} {fault : Bool} {ctx : RequestContext} {st' : Store}
    (h : telegramAuth header tok st fault = AuthOutcome.proceed ctx st') :
    ∃ d tid, header = some d ∧ d ≠ [] ∧
      verifyTelegramInitData d tok = true ∧
      truthy (parseTelegramUser d) = true ∧
      jsGetId (parseTelegramUser d) = some tid ∧ fault = false ∧
      ctx.telegramUser = parseTelegramUser d ∧
      ctx.user = (userUpsert st tid (mirrorFieldsOf (parseTelegramUser d))).1 ∧
      st' = (userUpsert st tid (mirrorFieldsOf (parseTelegramUser d))).2 ∧
      ctx.admin = findAdminByTgId st' tid := by
  cases header with
  | none => exact absurd h (by simp [telegramAuth])
  | some d =>
    unfold telegramAuth at h
    dsimp only at h
    by_cases hd : d = []
    · rw [if_pos hd] at h; exact absurd h (by simp)
    · rw [if_neg hd] at h
      by_cases hv : verifyTelegramInitData d tok = false
      · rw [if_pos hv] at h
        exact absurd h (by simp)
      · rw [if_neg hv] at h
        by_cases ht : truthy (parseTelegramUser d) = false
        · rw [if_pos ht] at h
          exact absurd h (by simp)
        · rw [if_neg ht] at h
          cases hid : jsGetId (parseTelegramUser d) with
          | none => rw [hid] at h; exact absurd h (by simp)
          | some tid =>
            rw [hid] at h
            dsimp only at h
            by_cases hm : mirrorOf (parseTelegramUser d) (jstr "username") = MirrorVal.invalid ∨
                mirrorOf (parseTelegramUser d) (jstr "first_name") = MirrorVal.invalid ∨
                mirrorOf (parseTelegramUser d) (jstr "last_name") = MirrorVal.invalid ∨
                mirrorOf (parseTelegramUser d) (jstr "language_code") = MirrorVal.invalid ∨
                mirrorOf (parseTelegramUser d) (jstr "photo_url") = MirrorVal.invalid
            · rw [if_pos hm] at h
              exact absurd h (by simp)
            · rw [if_neg hm] at h
              by_cases hf : fault = true
              · rw [if_pos hf] at h
                exact absurd h (by simp)
              · rw [if_neg hf] at h
                injection h with h1 h2
                subst h2
                refine ⟨d, tid, rfl, hd, by simpa using hv, by simpa using ht, hid,
                  by simpa using hf, ?_, ?_, rfl, ?_⟩
                · rw [← h1]
                · rw [← h1]
                · rw [← h1]


/-! # Claim C3 — the mirror refresh leaves moderation and payout state alone -/

/-- Length of a filter is unchanged by the upsert's per-row update map,
because the update preserves each row's Telegram id. -/
theorem filter_length_map_upd (tid : List Nat) (m : MirrorFields) (l : List UserRecord) :
    ((l.map fun u => if u.telegramId = tid then applyMirror u m else u).filter
      (fun u => u.telegramId = tid)).length =
    (l.filter (fun u => u.telegramId = tid)).length := by
  induction l with
  | nil => rfl
  | cons x xs ih =>
    rw [List.map_cons]
    by_cases hx : x.telegramId = tid
    · rw [if_pos hx]
      have h1 : (applyMirror x m).telegramId = tid := by simp [applyMirror, hx]
      simp only [List.filter_cons, h1, hx, if_pos, decide_true_eq_true]
      simp [ih]
    · rw [if_neg hx]
      simp only [List.filter_cons]
      simp [hx, ih]

/-- C3: for an already-existing account, a successful `telegramAuth` run
updates only the mirrored profile fields (username, first/last name,
language code, photo URL) from the verified identity, and leaves
`isBlocked`, `blockReason`, `mutedUntil`, both payout fields, the
partner/commission fields, `phone`, `bio`, `chatId` — and the row id —
unchanged; the refreshed row is what the store then holds. -/
theorem claim_C3_mirror_refresh_frame :
    ∀ (header : Option (List Nat)) (tok : List Nat) (st : Store)
      (ctx : RequestContext) (st' : Store) (u0 : UserRecord),
    telegramAuth header tok st false = AuthOutcome.proceed ctx st' →
    findUserByTgId st ctx.user.telegramId = some u0 →
    ctx.user.isBlocked = u0.isBlocked ∧
    ctx.user.blockReason = u0.blockReason ∧
    ctx.user.mutedUntil = u0.mutedUntil ∧
    ctx.user.payoutUsdtTrc20 = u0.payoutUsdtTrc20 ∧
    ctx.user.payoutUsdtBep20 = u0.payoutUsdtBep20 ∧
    ctx.user.isPartner = u0.isPartner ∧
    ctx.user.commissionPercent = u0.commissionPercent ∧
    ctx.user.phone = u0.phone ∧
    ctx.user.bio = u0.bio ∧
    ctx.user.chatId = u0.chatId ∧
    ctx.user.id = u0.id ∧
    ctx.user.username = (mirrorFieldsOf ctx.telegramUser).username ∧
    ctx.user.firstName = (mirrorFieldsOf ctx.telegramUser).firstName ∧
    ctx.user.lastName = (mirrorFieldsOf ctx.telegramUser).lastName ∧
    ctx.user.languageCode = (mirrorFieldsOf ctx.telegramUser).languageCode ∧
    ctx.user.photoUrl = (mirrorFieldsOf ctx.telegramUser).photoUrl ∧
    findUserByTgId st' ctx.user.telegramId = some ctx.user := by
  intro header tok st ctx st' u0 hp hf
  obtain ⟨d, tid, -, -, -, -, -, -, hctxU, huser, hst', -⟩ := telegramAuth_proceed_inv hp
  obtain ⟨htid, -, -, -, -, -, hfind⟩ := userUpsert_row st tid (mirrorFieldsOf (parseTelegramUser d))
  have htid' : ctx.user.telegramId = tid := by rw [huser]; exact htid
  rw [htid'] at hf
  obtain ⟨hrow, -, -, -⟩ := userUpsert_existing st tid (mirrorFieldsOf (parseTelegramUser d)) u0 hf
  rw [huser, hrow, hctxU, hst']
  rw [hrow] at hfind
  have hu0tid : (applyMirror u0 (mirrorFieldsOf (parseTelegramUser d))).telegramId = tid := by
    rw [← hrow, ← huser]; exact htid'
  refine ⟨rfl, rfl, rfl, rfl, rfl, rfl, rfl, rfl, rfl, rfl, rfl, rfl, rfl, rfl, rfl, rfl, ?_⟩
  rw [hu0tid]
  exact hfind

/-- Telegram id 555's pre-existing row, carrying moderation, payout,
partner and contact state, for exercising the refresh. -/
def uOldW : UserRecord :=
  ⟨jstr "u1", jstr "555", some (jstr "oldname"), some (jstr "Old"), some (jstr "Name"),
   some (jstr "ru"), some (jstr "http://x"), some (jstr "+7900"), some (jstr "bio"),
   some (jstr "trc-addr"), some (jstr "bep-addr"), some (jstr "chat1"), some 42, true,
   some (jstr "spam"), true, some 15⟩

/-- The same row after a refresh from the identity `{"id":555}` (all
mirror fields absent): mirrors null, everything else untouched. -/
def uNewW : UserRecord :=
  ⟨jstr "u1", jstr "555", none, none, none, none, none, some (jstr "+7900"), some (jstr "bio"),
   some (jstr "trc-addr"), some (jstr "bep-addr"), some (jstr "chat1"), some 42, true,
   some (jstr "spam"), true, some 15⟩

/-- The parsed identity `{"id":555}`. -/
def userJsonW : Json := Json.obj [(jstr "id", Json.num 555)]

/-- A payload carrying `user={"id":555}` correctly signed with secret
`token`. -/
def initW : List Nat :=
  jstr "user=%7B%22id%22%3A555%7D&hash=6907c1b0720728c4cd42d1e16a88af45a95dd884ba384f5b1cdf32a18ed5783a"

/-- C3 witness: authenticating id 555 against a store holding `uOldW`
(blocked, muted, with payouts and partner state) yields `uNewW`: same
moderation/payout/partner/contact state and row id, mirrors refreshed. -/
theorem claim_C3_mirror_refresh_frame_witness :
    uNewW.isBlocked = uOldW.isBlocked ∧
    uNewW.blockReason = uOldW.blockReason ∧
    uNewW.mutedUntil = uOldW.mutedUntil ∧
    uNewW.payoutUsdtTrc20 = uOldW.payoutUsdtTrc20 ∧
    uNewW.payoutUsdtBep20 = uOldW.payoutUsdtBep20 ∧
    uNewW.isPartner = uOldW.isPartner ∧
    uNewW.commissionPercent = uOldW.commissionPercent ∧
    uNewW.phone = uOldW.phone ∧
    uNewW.bio = uOldW.bio ∧
    uNewW.chatId = uOldW.chatId ∧
    uNewW.id = uOldW.id ∧
    uNewW.username = (mirrorFieldsOf userJsonW).username ∧
    uNewW.firstName = (mirrorFieldsOf userJsonW).firstName ∧
    uNewW.lastName = (mirrorFieldsOf userJsonW).lastName ∧
    uNewW.languageCode = (mirrorFieldsOf userJsonW).languageCode ∧
    uNewW.photoUrl = (mirrorFieldsOf userJsonW).photoUrl ∧
    findUserByTgId ⟨[uNewW], [], 3⟩ uNewW.telegramId = some uNewW :=
  claim_C3_mirror_refresh_frame (some initW) (jstr "token") ⟨[uOldW], [], 3⟩
    ⟨userJsonW, uNewW, none⟩ ⟨[uNewW], [], 3⟩ uOldW rfl rfl

/-! # Claim C10 — absent identity fields overwrite stored values with null -/

/-- C10: on every successful authentication, each mirrored profile field
that is absent (or null) in the verified identity is overwritten to null
in the stored account — previous values are not preserved — and the row
the context carries is exactly what the store persists; this covers
first creation and refresh alike, since it holds for every prior store. -/
theorem claim_C10_absent_fields_null :
    ∀ (header : Option (List Nat)) (tok : List Nat) (st : Store)
      (ctx : RequestContext) (st' : Store),
    telegramAuth header tok st false = AuthOutcome.proceed ctx st' →
    ((mirrorOf ctx.telegramUser (jstr "username") = MirrorVal.null →
        ctx.user.username = none) ∧
     (mirrorOf ctx.telegramUser (jstr "first_name") = MirrorVal.null →
        ctx.user.firstName = none) ∧
     (mirrorOf ctx.telegramUser (jstr "last_name") = MirrorVal.null →
        ctx.user.lastName = none) ∧
     (mirrorOf ctx.telegramUser (jstr "language_code") = MirrorVal.null →
        ctx.user.languageCode = none) ∧
     (mirrorOf ctx.telegramUser (jstr "photo_url") = MirrorVal.null →
        ctx.user.photoUrl = none)) ∧
    findUserByTgId st' ctx.user.telegramId = some ctx.user := by
  intro header tok st ctx st' hp
  obtain ⟨d, tid, -, -, -, -, -, -, hctxU, huser, hst', -⟩ := telegramAuth_proceed_inv hp
  obtain ⟨htid, hm1, hm2, hm3, hm4, hm5, hfind⟩ :=
    userUpsert_row st tid (mirrorFieldsOf (parseTelegramUser d))
  constructor
  · refine ⟨?_, ?_, ?_, ?_, ?_⟩ <;> intro hnull <;> rw [hctxU] at hnull <;> rw [huser]
    · rw [hm1]; simp [mirrorFieldsOf, hnull, mirrorToDb]
    · rw [hm2]; simp [mirrorFieldsOf, hnull, mirrorToDb]
    · rw [hm3]; simp [mirrorFieldsOf, hnull, mirrorToDb]
    · rw [hm4]; simp [mirrorFieldsOf, hnull, mirrorToDb]
    · rw [hm5]; simp [mirrorFieldsOf, hnull, mirrorToDb]
  · rw [hst', huser, htid]
    exact hfind

/-- C10 witness: authenticating id 555 (identity `{"id":555}`, no
profile fields) against a store whose row for 555 has every mirror field
set: all five mirrors end up null and the nulled row is persisted. -/
theorem claim_C10_absent_fields_null_witness :
    uNewW.username = none ∧ uNewW.firstName = none ∧ uNewW.lastName = none ∧
    uNewW.languageCode = none ∧ uNewW.photoUrl = none ∧
    findUserByTgId ⟨[uNewW], [], 3⟩ uNewW.telegramId = some uNewW := by
  have h := claim_C10_absent_fields_null (some initW) (jstr "token") ⟨[uOldW], [], 3⟩
    ⟨userJsonW, uNewW, none⟩ ⟨[uNewW], [], 3⟩ rfl
  exact ⟨h.1.1 rfl, h.1.2.1 rfl, h.1.2.2.1 rfl, h.1.2.2.2.1 rfl, h.1.2.2.2.2 rfl, h.2⟩

/-! # Claim C9 — two concurrent first-contact authentications -/

/-- Two sequential upserts for a fresh Telegram id leave exactly one row
with that id, and both return rows with the same primary key. -/
theorem seq_upsert_fresh (st : Store) (tid : List Nat) (ma mb : MirrorFields)
    (h : findUserByTgId st tid = none) :
    countUsersWithTgId (userUpsert (userUpsert st tid ma).2 tid mb).2 tid = 1 ∧
    (userUpsert st tid ma).1.id = (userUpsert (userUpsert st tid ma).2 tid mb).1.id ∧
    (userUpsert st tid ma).1.telegramId = tid ∧
    (userUpsert (userUpsert st tid ma).2 tid mb).1.telegramId = tid := by
  obtain ⟨hc1, hu1, -⟩ := userUpsert_fresh st tid ma h
  have hfind1 : findUserByTgId (userUpsert st tid ma).2 tid = some (createUser st tid ma) := by
    rw [← hc1]
    exact (userUpsert_row st tid ma).2.2.2.2.2.2
  obtain ⟨hrow2, husers2, -, -⟩ :=
    userUpsert_existing (userUpsert st tid ma).2 tid mb (createUser st tid ma) hfind1
  have hfilter0 : st.users.filter (fun u => u.telegramId = tid) = [] := by
    rw [List.filter_eq_nil_iff]
    intro a ha
    have h' : ∀ x ∈ st.users, ¬x.telegramId = tid := by
      simpa [findUserByTgId, List.find?_eq_none] using h
    simpa using h' a ha
  constructor
  · unfold countUsersWithTgId
    rw [husers2, filter_length_map_upd, hu1, List.filter_append, hfilter0]
    simp [createUser, List.filter_cons]
  · refine ⟨?_, ?_, ?_⟩
    · rw [hc1, hrow2]; rfl
    · rw [hc1]; rfl
    · rw [hrow2]
      simp [applyMirror, createUser]

/-- C9: for a never-before-seen Telegram id, either interleaving of two
concurrent authenticate calls (each performing one atomic upsert — the
spec's insert-or-update-on-conflict on the unique id) leaves exactly one
persisted account row for that id, and the two calls observe rows with
the same account id, both keyed by that Telegram id. -/
theorem claim_C9_concurrent_upsert :
    ∀ (ord : Bool) (st : Store) (tid : List Nat) (m1 m2 : MirrorFields),
    findUserByTgId st tid = none →
    countUsersWithTgId (concurrentUpserts ord st tid m1 m2).2.2 tid = 1 ∧
    (concurrentUpserts ord st tid m1 m2).1.id = (concurrentUpserts ord st tid m1 m2).2.1.id ∧
    (concurrentUpserts ord st tid m1 m2).1.telegramId = tid ∧
    (concurrentUpserts ord st tid m1 m2).2.1.telegramId = tid := by
  intro ord st tid m1 m2 h
  cases ord with
  | true =>
    obtain ⟨h1, h2, h3, h4⟩ := seq_upsert_fresh st tid m1 m2 h
    exact ⟨h1, h2, h3, h4⟩
  | false =>
    obtain ⟨h1, h2, h3, h4⟩ := seq_upsert_fresh st tid m2 m1 h
    exact ⟨h1, h2.symm, h4, h3⟩

/-- C9 witness: the property at a concrete interleaving, empty store,
id `555` and two different mirror payloads. -/
theorem claim_C9_concurrent_upsert_witness :
    countUsersWithTgId
      (concurrentUpserts true ⟨[], [], 0⟩ (jstr "555")
        ⟨some (jstr "a"), none, none, none, none⟩ ⟨none, none, none, none, none⟩).2.2
      (jstr "555") = 1 ∧
    (concurrentUpserts true ⟨[], [], 0⟩ (jstr "555")
        ⟨some (jstr "a"), none, none, none, none⟩ ⟨none, none, none, none, none⟩).1.id =
      (concurrentUpserts true ⟨[], [], 0⟩ (jstr "555")
        ⟨some (jstr "a"), none, none, none, none⟩ ⟨none, none, none, none, none⟩).2.1.id ∧
    (concurrentUpserts true ⟨[], [], 0⟩ (jstr "555")
        ⟨some (jstr "a"), none, none, none, none⟩ ⟨none, none, none, none, none⟩).1.telegramId =
      jstr "555" ∧
    (concurrentUpserts true ⟨[], [], 0⟩ (jstr "555")
        ⟨some (jstr "a"), none, none, none, none⟩ ⟨none, none, none, none, none⟩).2.1.telegramId =
      jstr "555" :=
  claim_C9_concurrent_upsert true ⟨[], [], 0⟩ (jstr "555")
    ⟨some (jstr "a"), none, none, none, none⟩ ⟨none, none, none, none, none⟩ rfl

/-! # Claim C2 — canonical string and key ordering -/


theorem lexCmpN_eq_zero : ∀ {a b : List Nat}, lexCmpN a b = 0 → a = b := by
  intro a
  induction a with
  | nil =>
    intro b h
    cases b with
    | nil => rfl
    | cons y ys => simp [lexCmpN] at h
  | cons x xs ih =>
    intro b h
    cases b with
    | nil => simp [lexCmpN] at h
    | cons y ys =>
      unfold lexCmpN at h
      by_cases hxy : x < y
      · rw [if_pos hxy] at h; exact absurd h (by decide)
      · rw [if_neg hxy] at h
        by_cases hyx : y < x
        · rw [if_pos hyx] at h; exact absurd h (by decide)
        · rw [if_neg hyx] at h
          have hx : x = y := Nat.le_antisymm (Nat.not_lt.mp hyx) (Nat.not_lt.mp hxy)
          rw [hx, ih h]

theorem lexCmpN_self : ∀ l : List Nat, lexCmpN l l = 0 := by
  intro l
  induction l with
  | nil => rfl
  | cons x xs ih => simp [lexCmpN, ih]

theorem primW_lowercase {u : Nat} (h : 97 ≤ u ∧ u ≤ 122) : primW u = 300 + (u - 97) := by
  unfold primW
  split_ifs <;> omega

theorem primW_lower_iff {u v : Nat}
    (hu : u = 95 ∨ (97 ≤ u ∧ u ≤ 122)) (hv : v = 95 ∨ (97 ≤ v ∧ v ≤ 122)) :
    (primW u < primW v ↔ u < v) := by
  rcases hu with h | h <;> rcases hv with h' | h'
  · subst h; subst h'; omega
  · subst h; rw [primW_lowercase h']; show (primW 95 < _ ↔ _); rw [show primW 95 = 95 from rfl]; omega
  · subst h'; rw [primW_lowercase h]; rw [show primW 95 = 95 from rfl]; omega
  · rw [primW_lowercase h, primW_lowercase h']; omega

theorem lexCmpN_map_primW : ∀ (x y : List Nat),
    (∀ u ∈ x, u = 95 ∨ (97 ≤ u ∧ u ≤ 122)) →
    (∀ u ∈ y, u = 95 ∨ (97 ≤ u ∧ u ≤ 122)) →
    lexCmpN (x.map primW) (y.map primW) = lexCmpN x y := by
  intro x
  induction x with
  | nil =>
    intro y hx hy
    cases y with
    | nil => rfl
    | cons v ys => rfl
  | cons u xs ih =>
    intro y hx hy
    cases y with
    | nil => rfl
    | cons v ys =>
      have hu := hx u (by simp)
      have hv := hy v (by simp)
      rw [List.map_cons, List.map_cons]
      unfold lexCmpN
      by_cases huv : u < v
      · rw [if_pos ((primW_lower_iff hu hv).mpr huv), if_pos huv]
      · rw [if_neg (fun hc => huv ((primW_lower_iff hu hv).mp hc)), if_neg huv]
        by_cases hvu : v < u
        · rw [if_pos ((primW_lower_iff hv hu).mpr hvu), if_pos hvu]
        · rw [if_neg (fun hc => hvu ((primW_lower_iff hv hu).mp hc)), if_neg hvu]
          exact ih ys (fun a ha => hx a (by simp [ha])) (fun a ha => hy a (by simp [ha]))

theorem localeCompare_lower (x y : List Nat)
    (hx : ∀ u ∈ x, u = 95 ∨ (97 ≤ u ∧ u ≤ 122))
    (hy : ∀ u ∈ y, u = 95 ∨ (97 ≤ u ∧ u ≤ 122)) :
    localeCompare x y = lexCmpN x y := by
  unfold localeCompare
  rw [lexCmpN_map_primW x y hx hy]
  by_cases hz : lexCmpN x y = 0
  · rw [if_pos hz, hz]
    rw [lexCmpN_eq_zero hz]
    exact lexCmpN_self _
  · rw [if_neg hz]

theorem insertCmp_congr {α : Type} (cmp1 cmp2 : α → α → Int) (x : α) (acc : List α)
    (h : ∀ y ∈ acc, cmp1 y x = cmp2 y x) :
    insertCmp cmp1 x acc = insertCmp cmp2 x acc := by
  induction acc with
  | nil => rfl
  | cons y ys ih =>
    unfold insertCmp
    rw [h y (by simp)]
    by_cases hc : cmp2 y x ≤ 0
    · rw [if_pos hc, if_pos hc, ih (fun z hz => h z (by simp [hz]))]
    · rw [if_neg hc, if_neg hc]

theorem insertCmp_perm {α : Type} (cmp : α → α → Int) (x : α) (acc : List α) :
    (insertCmp cmp x acc).Perm (x :: acc) := by
  induction acc with
  | nil => exact List.Perm.refl _
  | cons y ys ih =>
    unfold insertCmp
    by_cases hc : cmp y x ≤ 0
    · rw [if_pos hc]
      exact (ih.cons y).trans (List.Perm.swap x y ys)
    · rw [if_neg hc]

theorem sortCmp_congr_aux {α : Type} (cmp1 cmp2 : α → α → Int) :
    ∀ (l acc : List α),
    (∀ x y, (x ∈ l ∨ x ∈ acc) → (y ∈ l ∨ y ∈ acc) → cmp1 x y = cmp2 x y) →
    l.foldl (fun a x => insertCmp cmp1 x a) acc = l.foldl (fun a x => insertCmp cmp2 x a) acc := by
  intro l
  induction l with
  | nil => intro acc h; rfl
  | cons x xs ih =>
    intro acc h
    simp only [List.foldl_cons]
    rw [insertCmp_congr cmp1 cmp2 x acc (fun y hy => h y x (Or.inr hy) (Or.inl (by simp)))]
    apply ih
    intro a b ha hb
    have hmem : ∀ c, c ∈ insertCmp cmp2 x acc → c ∈ x :: acc :=
      fun c hc => (insertCmp_perm cmp2 x acc).mem_iff.mp hc
    have expand : ∀ c, (c ∈ xs ∨ c ∈ insertCmp cmp2 x acc) → (c ∈ x :: xs ∨ c ∈ acc) := by
      intro c hc
      rcases hc with hc | hc
      · exact Or.inl (by simp [hc])
      · rcases List.mem_cons.mp (hmem c hc) with hc | hc
        · exact Or.inl (by simp [hc])
        · exact Or.inr hc
    exact h a b (expand a ha) (expand b hb)

theorem sortCmp_congr {α : Type} (cmp1 cmp2 : α → α → Int) (l : List α)
    (h : ∀ x ∈ l, ∀ y ∈ l, cmp1 x y = cmp2 x y) :
    sortCmp cmp1 l = sortCmp cmp2 l := by
  unfold sortCmp
  apply sortCmp_congr_aux
  intro x y hx hy
  rcases hx with hx | hx
  · rcases hy with hy | hy
    · exact h x hx y hy
    · simp at hy
  · simp at hx

/-- C2 as amended: the canonical string removes `hash`, joins
`key=value` lines with single newlines in sorted-key order — but the
sort comparator is `localeCompare` (root-locale collation), which
coincides with byte-wise code-unit ordering whenever every key consists
of lowercase ASCII letters and underscores (as all real Telegram
init-data keys do), though not for arbitrary keys. Under that proviso
the implementation's canonical string equals the spec's byte-wise one. -/
theorem claim_C2_lowercase_agreement :
    ∀ entries : List (List Nat × List Nat),
    (∀ p ∈ entries, ∀ u ∈ p.1, u = 95 ∨ (97 ≤ u ∧ u ≤ 122)) →
    dataCheckString entries = dataCheckStringSpec entries := by
  intro entries h
  unfold dataCheckString dataCheckStringSpec
  rw [sortCmp_congr _ _ entries
    (fun p hp q hq => localeCompare_lower p.1 q.1 (h p hp) (h q hq))]

/-- C2 counterexample: on keys `B` and `a` the implementation's
`localeCompare` sort puts `a` first (root collation orders letters
case-insensitively, lowercase first), while byte-wise ordering puts `B`
(0x42) before `a` (0x61): the two canonical strings differ, so the
implementation's key comparison does not agree with byte-wise code-unit
ordering. -/
theorem claim_C2_counterexample :
    dataCheckString [(jstr "B", jstr "1"), (jstr "a", jstr "2")] = jstr "a=2\nB=1" ∧
    dataCheckStringSpec [(jstr "B", jstr "1"), (jstr "a", jstr "2")] = jstr "B=1\na=2" ∧
    dataCheckString [(jstr "B", jstr "1"), (jstr "a", jstr "2")] ≠
      dataCheckStringSpec [(jstr "B", jstr "1"), (jstr "a", jstr "2")] :=
  ⟨rfl, rfl, by decide⟩


/-- C2 witness: on the realistic lowercase entries `auth_date=1`,
`user=x` the implementation and spec canonical strings agree. -/
theorem claim_C2_lowercase_agreement_witness :
    dataCheckString [(jstr "auth_date", jstr "1"), (jstr "user", jstr "x")] =
      dataCheckStringSpec [(jstr "auth_date", jstr "1"), (jstr "user", jstr "x")] :=
  claim_C2_lowercase_agreement [(jstr "auth_date", jstr "1"), (jstr "user", jstr "x")]
    (by decide)

/-! # Claim C6 — order invariance of verification -/

theorem lexCmpN_swap : ∀ (a b : List Nat), lexCmpN b a = -(lexCmpN a b) := by
  intro a
  induction a with
  | nil =>
    intro b
    cases b with
    | nil => rfl
    | cons y ys => rfl
  | cons x xs ih =>
    intro b
    cases b with
    | nil => rfl
    | cons y ys =>
      unfold lexCmpN
      rcases Nat.lt_trichotomy x y with h | h | h
      · rw [if_neg (show ¬y < x by omega), if_pos h, if_pos h]
        decide
      · subst h
        rw [if_neg (by omega), if_neg (by omega), if_neg (by omega), if_neg (by omega)]
        exact ih ys
      · rw [if_pos h, if_neg (show ¬x < y by omega), if_pos h]

theorem lexCmpN_trans_le : ∀ (a b c : List Nat),
    lexCmpN a b ≤ 0 → lexCmpN b c ≤ 0 → lexCmpN a c ≤ 0 := by
  intro a
  induction a with
  | nil =>
    intro b c _ _
    cases c with
    | nil => exact le_refl _
    | cons z zs => unfold lexCmpN; omega
  | cons x xs ih =>
    intro b c h1 h2
    cases b with
    | nil => exact absurd h1 (by unfold lexCmpN; omega)
    | cons y ys =>
      cases c with
      | nil => exact absurd h2 (by unfold lexCmpN; omega)
      | cons z zs =>
        unfold lexCmpN at h1 h2 ⊢
        rcases Nat.lt_trichotomy x y with hxy | hxy | hxy
        · rcases Nat.lt_trichotomy y z with hyz | hyz | hyz
          · rw [if_pos (hxy.trans hyz)]; omega
          · subst hyz; rw [if_pos hxy]; omega
          · rw [if_neg (by omega), if_pos hyz] at h2; omega
        · subst hxy
          rw [if_neg (by omega), if_neg (by omega)] at h1
          rcases Nat.lt_trichotomy x z with hxz | hxz | hxz
          · rw [if_pos hxz]; omega
          · subst hxz
            rw [if_neg (by omega), if_neg (by omega)] at h2 ⊢
            exact ih ys zs h1 h2
          · rw [if_neg (by omega), if_pos hxz] at h2; omega
        · rw [if_neg (by omega), if_pos hxy] at h1; omega

theorem localeCompare_swap (x y : List Nat) : localeCompare y x = -(localeCompare x y) := by
  unfold localeCompare
  rw [lexCmpN_swap (x.map primW) (y.map primW), lexCmpN_swap (x.map tertW) (y.map tertW)]
  by_cases hz : lexCmpN (x.map primW) (y.map primW) = 0
  · rw [if_pos (show -(lexCmpN (x.map primW) (y.map primW)) = 0 by omega), if_pos hz]
  · rw [if_neg (show ¬(-(lexCmpN (x.map primW) (y.map primW)) = 0) by omega), if_neg hz]

theorem localeCompare_total (x y : List Nat) :
    localeCompare x y ≤ 0 ∨ localeCompare y x ≤ 0 := by
  rw [localeCompare_swap]
  omega

theorem map_primW_eq_of_zero {x y : List Nat}
    (h : lexCmpN (x.map primW) (y.map primW) = 0) : x.map primW = y.map primW :=
  lexCmpN_eq_zero h

theorem localeCompare_trans_le (x y z : List Nat)
    (h1 : localeCompare x y ≤ 0) (h2 : localeCompare y z ≤ 0) :
    localeCompare x z ≤ 0 := by
  unfold localeCompare at h1 h2 ⊢
  by_cases p1 : lexCmpN (x.map primW) (y.map primW) = 0
  · rw [if_pos p1] at h1
    have hxy := map_primW_eq_of_zero p1
    by_cases p2 : lexCmpN (y.map primW) (z.map primW) = 0
    · rw [if_pos p2] at h2
      have hp : lexCmpN (x.map primW) (z.map primW) = 0 := by rw [hxy]; exact p2
      rw [if_pos hp]
      exact lexCmpN_trans_le _ _ _ h1 h2
    · rw [if_neg p2] at h2
      have hp : lexCmpN (x.map primW) (z.map primW) = lexCmpN (y.map primW) (z.map primW) := by
        rw [hxy]
      rw [if_neg (by rw [hp]; exact p2), hp]
      exact h2
  · rw [if_neg p1] at h1
    by_cases p2 : lexCmpN (y.map primW) (z.map primW) = 0
    · rw [if_pos p2] at h2
      have hyz := map_primW_eq_of_zero p2
      have hp : lexCmpN (x.map primW) (z.map primW) = lexCmpN (x.map primW) (y.map primW) := by
        rw [hyz]
      by_cases p3 : lexCmpN (x.map primW) (z.map primW) = 0
      · exact absurd (hp.symm.trans p3) p1
      · rw [if_neg p3, hp]
        exact h1
    · rw [if_neg p2] at h2
      have hle : lexCmpN (x.map primW) (z.map primW) ≤ 0 :=
        lexCmpN_trans_le (x.map primW) (y.map primW) (z.map primW) (by omega) (by omega)
      by_cases p3 : lexCmpN (x.map primW) (z.map primW) = 0
      · exfalso
        have hxz := map_primW_eq_of_zero p3
        have : lexCmpN (y.map primW) (x.map primW) ≤ 0 := by
          rw [← hxz] at h2; omega
        rw [lexCmpN_swap] at this
        omega
      · rw [if_neg p3]
        exact hle

theorem localeCompare_not_le {x y : List Nat} (h : ¬localeCompare x y ≤ 0) :
    localeCompare y x ≤ 0 := by
  rcases localeCompare_total x y with h' | h'
  · exact absurd h' h
  · exact h'

theorem insertCmp_pairwise (x : List Nat × List Nat) (acc : List (List Nat × List Nat))
    (h : acc.Pairwise (fun a b => localeCompare a.1 b.1 ≤ 0)) :
    (insertCmp (fun a b => localeCompare a.1 b.1) x acc).Pairwise
      (fun a b => localeCompare a.1 b.1 ≤ 0) := by
  induction acc with
  | nil => unfold insertCmp; simp
  | cons y ys ih =>
    rw [List.pairwise_cons] at h
    unfold insertCmp
    by_cases hc : localeCompare y.1 x.1 ≤ 0
    · rw [if_pos hc]
      rw [List.pairwise_cons]
      constructor
      · intro z hz
        rcases List.mem_cons.mp ((insertCmp_perm _ x ys).mem_iff.mp hz) with hz | hz
        · subst hz; exact hc
        · exact h.1 z hz
      · exact ih h.2
    · rw [if_neg hc]
      rw [List.pairwise_cons]
      have hxy : localeCompare x.1 y.1 ≤ 0 := localeCompare_not_le hc
      constructor
      · intro z hz
        rcases List.mem_cons.mp hz with hz | hz
        · subst hz; exact hxy
        · exact localeCompare_trans_le x.1 y.1 z.1 hxy (h.1 z hz)
      · rw [List.pairwise_cons]
        exact h

theorem sortCmp_pairwise_aux :
    ∀ (l acc : List (List Nat × List Nat)),
    acc.Pairwise (fun a b => localeCompare a.1 b.1 ≤ 0) →
    (l.foldl (fun a x => insertCmp (fun p q => localeCompare p.1 q.1) x a) acc).Pairwise
      (fun a b => localeCompare a.1 b.1 ≤ 0) := by
  intro l
  induction l with
  | nil => intro acc h; exact h
  | cons x xs ih =>
    intro acc h
    simp only [List.foldl_cons]
    exact ih _ (insertCmp_pairwise x acc h)

theorem sortCmp_pairwise (l : List (List Nat × List Nat)) :
    (sortCmp (fun a b => localeCompare a.1 b.1) l).Pairwise
      (fun a b => localeCompare a.1 b.1 ≤ 0) :=
  sortCmp_pairwise_aux l [] (by simp)

theorem sortCmp_perm_aux {α : Type} (cmp : α → α → Int) :
    ∀ (l acc : List α),
    (l.foldl (fun a x => insertCmp cmp x a) acc).Perm (acc ++ l) := by
  intro l
  induction l with
  | nil => intro acc; simp
  | cons x xs ih =>
    intro acc
    simp only [List.foldl_cons]
    refine (ih (insertCmp cmp x acc)).trans ?_
    have h1 : (insertCmp cmp x acc ++ xs).Perm ((x :: acc) ++ xs) :=
      (insertCmp_perm cmp x acc).append_right xs
    refine h1.trans ?_
    simp only [List.cons_append]
    exact List.perm_middle.symm

theorem sortCmp_perm {α : Type} (cmp : α → α → Int) (l : List α) :
    (sortCmp cmp l).Perm l := by
  simpa using sortCmp_perm_aux cmp l []

/-- Two permutations of the same pairs, each sorted so that keys are
pairwise `≤` under byte-wise code-unit comparison, are equal whenever the
keys are pairwise-distinct strings. (`lexCmpN a b = 0 → a = b` is a real
property of code-unit comparison, unlike collation compare-0, which on
repertoires with ignorable characters can relate distinct strings.) -/
theorem lex_sorted_perm_eq_nodupkeys :
    ∀ (l1 l2 : List (List Nat × List Nat)),
    l1.Perm l2 →
    l1.Pairwise (fun a b => lexCmpN a.1 b.1 ≤ 0) →
    l2.Pairwise (fun a b => lexCmpN a.1 b.1 ≤ 0) →
    (l1.map Prod.fst).Nodup → l1 = l2 := by
  intro l1
  induction l1 with
  | nil =>
    intro l2 hp _ _ _
    exact hp.nil_eq
  | cons x xs ih =>
    intro l2 hp hs1 hs2 hnd
    cases l2 with
    | nil => exact absurd hp.symm.nil_eq (by simp)
    | cons y ys =>
      by_cases hxy : x = y
      · subst hxy
        have htail := hp.cons_inv
        rw [List.pairwise_cons] at hs1 hs2
        rw [List.map_cons, List.nodup_cons] at hnd
        rw [ih ys htail hs1.2 hs2.2 hnd.2]
      · exfalso
        have hx2 : x ∈ y :: ys := hp.subset (by simp)
        have hy1 : y ∈ x :: xs := hp.symm.subset (by simp)
        have hx_in_ys : x ∈ ys := (List.mem_cons.mp hx2).resolve_left hxy
        have hy_in_xs : y ∈ xs := (List.mem_cons.mp hy1).resolve_left (fun h => hxy h.symm)
        rw [List.pairwise_cons] at hs1 hs2
        have h1 : lexCmpN x.1 y.1 ≤ 0 := hs1.1 y hy_in_xs
        have h2 : lexCmpN y.1 x.1 ≤ 0 := hs2.1 x hx_in_ys
        have hz : lexCmpN x.1 y.1 = 0 := by
          have := lexCmpN_swap x.1 y.1
          omega
        have hkey : x.1 = y.1 := lexCmpN_eq_zero hz
        rw [List.map_cons, List.nodup_cons] at hnd
        exact hnd.1 (hkey ▸ List.mem_map_of_mem Prod.fst hy_in_xs)

theorem getFirst_perm_nodup (k : List Nat) :
    ∀ {l1 l2 : List (List Nat × List Nat)}, l1.Perm l2 →
    (l1.map Prod.fst).Nodup → getFirst k l1 = getFirst k l2 := by
  intro l1 l2 hp
  induction hp with
  | nil => intro _; rfl
  | cons x hp ih =>
    intro hnd
    by_cases hx : x.1 = k
    · simp [getFirst, hx]
    · rw [List.map_cons, List.nodup_cons] at hnd
      simp only [getFirst, hx, if_neg, if_false]
      simpa [hx] using ih hnd.2
  | swap x y l =>
    intro hnd
    by_cases hy : y.1 = k
    · by_cases hx : x.1 = k
      · exfalso
        rw [List.map_cons, List.nodup_cons] at hnd
        exact hnd.1 (by rw [hy, ← hx]; exact List.mem_map_of_mem Prod.fst (by simp))
      · simp [getFirst, hy, hx]
    · by_cases hx : x.1 = k
      · simp [getFirst, hy, hx]
      · simp [getFirst, hy, hx]
  | trans h12 h23 ih1 ih2 =>
    intro hnd
    refine (ih1 hnd).trans (ih2 ?_)
    exact ((h12.map Prod.fst).nodup_iff).mp hnd


/-- C6 as amended: verification is invariant to the order of input
fields provided the keys are pairwise-distinct strings of lowercase
ASCII letters and underscores (the repertoire of every real Telegram
init-data key, on which root-locale collation coincides with byte-wise
comparison and rates distinct keys as unequal): two such payloads with
the same key/value pairs as multisets (hence the same hash entry)
verify identically. With duplicate keys the stable sort preserves input
order among equal keys and the verdict can change — see the
counterexample; on richer repertoires ICU root can rate distinct keys
as collation-equal (completely ignorable characters, canonical
equivalents), so distinctness alone does not suffice there either. -/
theorem claim_C6_perm_invariance :
    ∀ (l1 l2 : List (List Nat × List Nat)) (tok : List Nat),
    (∀ p ∈ l1, ∀ u ∈ p.1, u = 95 ∨ (97 ≤ u ∧ u ≤ 122)) →
    l1.Perm l2 → (l1.map Prod.fst).Nodup →
    verifyParams l1 tok = verifyParams l2 tok := by
  intro l1 l2 tok hlow hp hnd
  unfold verifyParams
  rw [← getFirst_perm_nodup (jstr "hash") hp hnd]
  have hperm' : (removeAll (jstr "hash") l1).Perm (removeAll (jstr "hash") l2) :=
    hp.filter _
  have hnd' : ((removeAll (jstr "hash") l1).map Prod.fst).Nodup :=
    List.Nodup.sublist ((List.filter_sublist _).map Prod.fst) hnd
  have hndSorted :
      ((sortCmp (fun a b => localeCompare a.1 b.1) (removeAll (jstr "hash") l1)).map
        Prod.fst).Nodup :=
    (((sortCmp_perm _ _).map Prod.fst).nodup_iff).mpr hnd'
  have hlow1 : ∀ p ∈ sortCmp (fun a b => localeCompare a.1 b.1)
      (removeAll (jstr "hash") l1), ∀ u ∈ p.1, u = 95 ∨ (97 ≤ u ∧ u ≤ 122) :=
    fun p hps => hlow p (List.mem_of_mem_filter ((sortCmp_perm _ _).mem_iff.mp hps))
  have hlow2 : ∀ p ∈ sortCmp (fun a b => localeCompare a.1 b.1)
      (removeAll (jstr "hash") l2), ∀ u ∈ p.1, u = 95 ∨ (97 ≤ u ∧ u ≤ 122) :=
    fun p hps => hlow p (hp.mem_iff.mpr
      (List.mem_of_mem_filter ((sortCmp_perm _ _).mem_iff.mp hps)))
  have hpw1 : (sortCmp (fun a b => localeCompare a.1 b.1)
      (removeAll (jstr "hash") l1)).Pairwise (fun a b => lexCmpN a.1 b.1 ≤ 0) :=
    (sortCmp_pairwise _).imp_of_mem (fun ha hb h => by
      rw [← localeCompare_lower _ _ (hlow1 _ ha) (hlow1 _ hb)]
      exact h)
  have hpw2 : (sortCmp (fun a b => localeCompare a.1 b.1)
      (removeAll (jstr "hash") l2)).Pairwise (fun a b => lexCmpN a.1 b.1 ≤ 0) :=
    (sortCmp_pairwise _).imp_of_mem (fun ha hb h => by
      rw [← localeCompare_lower _ _ (hlow2 _ ha) (hlow2 _ hb)]
      exact h)
  have hsort :
      sortCmp (fun a b => localeCompare a.1 b.1) (removeAll (jstr "hash") l1) =
      sortCmp (fun a b => localeCompare a.1 b.1) (removeAll (jstr "hash") l2) :=
    lex_sorted_perm_eq_nodupkeys _ _
      ((sortCmp_perm _ _).trans (hperm'.trans (sortCmp_perm _ _).symm))
      hpw1 hpw2 hndSorted
  have hdcs : dataCheckString (removeAll (jstr "hash") l1) =
      dataCheckString (removeAll (jstr "hash") l2) := by
    unfold dataCheckString
    rw [hsort]
  rw [hdcs]

/-- C6 counterexample: the payloads `a=1&a=2&hash=H` and
`a=2&a=1&hash=H` hold the same key/value multiset and the same hash,
yet the first verifies and the second does not (the stable sort keeps
the two `a` entries in input order, so the canonical strings differ). -/
theorem claim_C6_counterexample :
    (parseQuery (jstr "a=1&a=2&hash=e82851d3467cdd49967162f1e4c423db2333cd67604895ed263417f7372e7f2d")).Perm
      (parseQuery (jstr "a=2&a=1&hash=e82851d3467cdd49967162f1e4c423db2333cd67604895ed263417f7372e7f2d")) ∧
    verifyTelegramInitData (jstr "a=1&a=2&hash=e82851d3467cdd49967162f1e4c423db2333cd67604895ed263417f7372e7f2d")
      (jstr "t") = true ∧
    verifyTelegramInitData (jstr "a=2&a=1&hash=e82851d3467cdd49967162f1e4c423db2333cd67604895ed263417f7372e7f2d")
      (jstr "t") = false :=
  ⟨by decide, by decide, by decide⟩

/-- C6 witness: two orderings of the distinct-lowercase-key payload
with entries `a=1`, `b=2` and `hash=H`, where `H` is the genuine hex
HMAC of the canonical string `a=1\nb=2` under secret `t`, verify
identically — and indeed both verify true. -/
theorem claim_C6_perm_invariance_witness :
    verifyParams [(jstr "b", jstr "2"),
        (jstr "hash", jstr "f83b54c3f54f91f43da206ded00923e237bdcb29a14a5b509d50f3d318041772"),
        (jstr "a", jstr "1")] (jstr "t") =
      verifyParams [(jstr "a", jstr "1"), (jstr "b", jstr "2"),
        (jstr "hash", jstr "f83b54c3f54f91f43da206ded00923e237bdcb29a14a5b509d50f3d318041772")]
        (jstr "t") ∧
    verifyParams [(jstr "a", jstr "1"), (jstr "b", jstr "2"),
      (jstr "hash", jstr "f83b54c3f54f91f43da206ded00923e237bdcb29a14a5b509d50f3d318041772")]
      (jstr "t") = true :=
  ⟨claim_C6_perm_invariance
    [(jstr "b", jstr "2"),
      (jstr "hash", jstr "f83b54c3f54f91f43da206ded00923e237bdcb29a14a5b509d50f3d318041772"),
      (jstr "a", jstr "1")]
    [(jstr "a", jstr "1"), (jstr "b", jstr "2"),
      (jstr "hash", jstr "f83b54c3f54f91f43da206ded00923e237bdcb29a14a5b509d50f3d318041772")]
    (jstr "t") (by decide) (by decide) (by decide), by decide⟩


/-! # Claim C1 — the authentication failure taxonomy -/

/-- A payload carrying `user={}` (valid JSON, no id) correctly signed
with secret `token`. -/
def cexInitC1 : List Nat :=
  jstr "user=%7B%7D&hash=18432421093c2aab5baa8a17161e1d31ec11688f90ce2dbea11237d1ad688394"

/-- C1 counterexample: on a correctly signed payload whose `user` is
`{}`, verification succeeds and identity extraction returns a (truthy)
non-absent value, yet the middleware responds 500 — `telegramUser.id`
is `undefined`, `.toString()` throws, and the catch forwards the
`TypeError` to the error handler. The claim's `otherwise it attaches a
RequestContext and proceeds` is violated, and the 500 here is not a
persistence failure (none was injected). -/
theorem claim_C1_counterexample :
    verifyTelegramInitData cexInitC1 (jstr "token") = true ∧
    parseTelegramUser cexInitC1 = Json.obj [] ∧
    truthy (Json.obj []) = true ∧
    telegramAuth (some cexInitC1) (jstr "token") ⟨[], [], 0⟩ false =
      AuthOutcome.respond ⟨500, RespBody.errMsg (jstr "Internal server error")⟩ :=
  ⟨by decide, rfl, rfl, rfl⟩

/-- C1 as amended: the middleware resolves each request in this order —
missing/empty header → 401 `Missing`; failed verification → 401
`InvalidSignature`; falsy parsed user (absent/unparsable/empty) → 401
`MalformedIdentity`; *a truthy parsed user without a usable `id`, or
with non-string mirror fields, makes the middleware throw and the error
handler answer 500*; a persistence failure during upsert/lookup
propagates as the 500 server error, never as a 401; otherwise it
attaches the RequestContext (identity, upserted account, optional admin
grant) and proceeds. -/
theorem claim_C1_cascade :
    ∀ (tok : List Nat) (st : Store) (fault : Bool) (header : Option (List Nat)),
    (header = none → telegramAuth header tok st fault =
      AuthOutcome.respond ⟨401, RespBody.errMsg (jstr "Missing Telegram init data")⟩) ∧
    (header = some [] → telegramAuth header tok st fault =
      AuthOutcome.respond ⟨401, RespBody.errMsg (jstr "Missing Telegram init data")⟩) ∧
    (∀ d, header = some d → d ≠ [] → verifyTelegramInitData d tok = false →
      telegramAuth header tok st fault =
        AuthOutcome.respond ⟨401, RespBody.errMsg (jstr "Invalid Telegram init data")⟩) ∧
    (∀ d, header = some d → d ≠ [] → verifyTelegramInitData d tok = true →
      truthy (parseTelegramUser d) = false →
      telegramAuth header tok st fault =
        AuthOutcome.respond ⟨401, RespBody.errMsg (jstr "Invalid Telegram user payload")⟩) ∧
    (∀ d, header = some d → d ≠ [] → verifyTelegramInitData d tok = true →
      truthy (parseTelegramUser d) = true → jsGetId (parseTelegramUser d) = none →
      telegramAuth header tok st fault =
        AuthOutcome.respond ⟨500, RespBody.errMsg (jstr "Internal server error")⟩) ∧
    (∀ d tid, header = some d → d ≠ [] → verifyTelegramInitData d tok = true →
      truthy (parseTelegramUser d) = true → jsGetId (parseTelegramUser d) = some tid →
      (mirrorOf (parseTelegramUser d) (jstr "username") = MirrorVal.invalid ∨
        mirrorOf (parseTelegramUser d) (jstr "first_name") = MirrorVal.invalid ∨
        mirrorOf (parseTelegramUser d) (jstr "last_name") = MirrorVal.invalid ∨
        mirrorOf (parseTelegramUser d) (jstr "language_code") = MirrorVal.invalid ∨
        mirrorOf (parseTelegramUser d) (jstr "photo_url") = MirrorVal.invalid) →
      telegramAuth header tok st fault =
        AuthOutcome.respond ⟨500, RespBody.errMsg (jstr "Internal server error")⟩) ∧
    (∀ d tid, header = some d → d ≠ [] → verifyTelegramInitData d tok = true →
      truthy (parseTelegramUser d) = true → jsGetId (parseTelegramUser d) = some tid →
      ¬(mirrorOf (parseTelegramUser d) (jstr "username") = MirrorVal.invalid ∨
        mirrorOf (parseTelegramUser d) (jstr "first_name") = MirrorVal.invalid ∨
        mirrorOf (parseTelegramUser d) (jstr "last_name") = MirrorVal.invalid ∨
        mirrorOf (parseTelegramUser d) (jstr "language_code") = MirrorVal.invalid ∨
        mirrorOf (parseTelegramUser d) (jstr "photo_url") = MirrorVal.invalid) →
      fault = true →
      telegramAuth header tok st fault = AuthOutcome.respond (errorHandler AppError.prismaDb) ∧
      errorHandler AppError.prismaDb =
        ⟨500, RespBody.errMsg (jstr "Internal server error")⟩ ∧
      (errorHandler AppError.prismaDb).status ≠ 401) ∧
    (∀ d tid, header = some d → d ≠ [] → verifyTelegramInitData d tok = true →
      truthy (parseTelegramUser d) = true → jsGetId (parseTelegramUser d) = some tid →
      ¬(mirrorOf (parseTelegramUser d) (jstr "username") = MirrorVal.invalid ∨
        mirrorOf (parseTelegramUser d) (jstr "first_name") = MirrorVal.invalid ∨
        mirrorOf (parseTelegramUser d) (jstr "last_name") = MirrorVal.invalid ∨
        mirrorOf (parseTelegramUser d) (jstr "language_code") = MirrorVal.invalid ∨
        mirrorOf (parseTelegramUser d) (jstr "photo_url") = MirrorVal.invalid) →
      fault = false →
      telegramAuth header tok st fault = AuthOutcome.proceed
        ⟨parseTelegramUser d,
         (userUpsert st tid (mirrorFieldsOf (parseTelegramUser d))).1,
         findAdminByTgId (userUpsert st tid (mirrorFieldsOf (parseTelegramUser d))).2 tid⟩
        (userUpsert st tid (mirrorFieldsOf (parseTelegramUser d))).2) := by
  intro tok st fault header
  refine ⟨?_, ?_, ?_, ?_, ?_, ?_, ?_, ?_⟩
  · intro h; subst h; rfl
  · intro h; subst h; rfl
  · intro d h hne hv; subst h
    unfold telegramAuth
    dsimp only
    rw [if_neg hne, if_pos hv]
  · intro d h hne hv ht; subst h
    unfold telegramAuth
    dsimp only
    rw [if_neg hne, if_neg (by simp [hv]), if_pos ht]
  · intro d h hne hv ht hid; subst h
    unfold telegramAuth
    dsimp only
    rw [if_neg hne, if_neg (by simp [hv]), if_neg (by simp [ht]), hid]
    rfl
  · intro d tid h hne hv ht hid hm; subst h
    unfold telegramAuth
    dsimp only
    rw [if_neg hne, if_neg (by simp [hv]), if_neg (by simp [ht]), hid]
    dsimp only
    rw [if_pos hm]
    rfl
  · intro d tid h hne hv ht hid hm hf; subst h; subst hf
    refine ⟨?_, rfl, by decide⟩
    unfold telegramAuth
    dsimp only
    rw [if_neg hne, if_neg (by simp [hv]), if_neg (by simp [ht]), hid]
    dsimp only
    rw [if_neg hm, if_pos rfl]
  · intro d tid h hne hv ht hid hm hf; subst h; subst hf
    unfold telegramAuth
    dsimp only
    rw [if_neg hne, if_neg (by simp [hv]), if_neg (by simp [ht]), hid]
    dsimp only
    rw [if_neg hm, if_neg (by simp)]

/-- C1 witness: the proceed branch exercised end-to-end — a signed
`{"id":555}` payload against an empty store attaches the parsed
identity, the freshly created row and no admin grant. -/
theorem claim_C1_cascade_witness :
    telegramAuth (some initW) (jstr "token") ⟨[], [], 0⟩ false = AuthOutcome.proceed
      ⟨Json.obj [(jstr "id", Json.num 555)],
       ⟨jstr "u0", jstr "555", none, none, none, none, none, none, none, none, none, none,
        none, false, none, false, none⟩, none⟩
      ⟨[⟨jstr "u0", jstr "555", none, none, none, none, none, none, none, none, none, none,
         none, false, none, false, none⟩], [], 1⟩ :=
  (claim_C1_cascade (jstr "token") ⟨[], [], 0⟩ false (some initW)).2.2.2.2.2.2.2
    initW (jstr "555") rfl (by decide) (by decide) rfl rfl (by decide) rfl

/-! # Claim C4 — the MAC decides verification -/

theorem utf8Encode_ascii : ∀ l : List Nat, (∀ u ∈ l, u < 128) → utf8Encode l = l := by
  intro l
  induction l with
  | nil => intro _; rfl
  | cons u us ih =>
    intro h
    have hu : u < 128 := h u (by simp)
    cases us with
    | nil =>
      unfold utf8Encode
      rw [if_pos (Or.inl (by omega))]
      unfold utf8Bytes
      rw [if_pos hu]
    | cons u2 us2 =>
      unfold utf8Encode
      rw [if_pos (Or.inl (by omega))]
      have := ih (fun a ha => h a (by simp [ha]))
      rw [this]
      unfold utf8Bytes
      rw [if_pos hu]
      rfl

theorem splitOnAmp_cons_of_piece : ∀ (a b piece : List Nat) (rest : List (List Nat)),
    (∀ u ∈ a, u ≠ 38) → splitOnAmp b = piece :: rest →
    splitOnAmp (a ++ b) = (a ++ piece) :: rest := by
  intro a
  induction a with
  | nil => intro b piece rest _ h; simpa using h
  | cons x xs ih =>
    intro b piece rest hno h
    have hx : x ≠ 38 := hno x (by simp)
    rw [List.cons_append]
    unfold splitOnAmp
    rw [if_neg hx]
    rw [ih b piece rest (fun u hu => hno u (by simp [hu])) h]
    rfl

theorem splitOnAmp_no38 : ∀ l : List Nat, (∀ u ∈ l, u ≠ 38) → splitOnAmp l = [l] := by
  intro l
  induction l with
  | nil => intro _; rfl
  | cons x xs ih =>
    intro h
    unfold splitOnAmp
    rw [if_neg (h x (by simp))]
    rw [ih (fun u hu => h u (by simp [hu]))]

theorem splitFirstEq_no61 : ∀ (a b : List Nat), (∀ u ∈ a, u ≠ 61) →
    splitFirstEq (a ++ 61 :: b) = (a, b) := by
  intro a
  induction a with
  | nil =>
    intro b _
    rfl
  | cons x xs ih =>
    intro b h
    rw [List.cons_append]
    unfold splitFirstEq
    rw [if_neg (h x (by simp))]
    rw [ih b (fun u hu => h u (by simp [hu]))]

theorem percentDecode_id : ∀ l : List Nat, (∀ u ∈ l, u ≠ 37) → percentDecode l = l := by
  intro l
  induction l with
  | nil => intro _; rfl
  | cons b bs ih =>
    intro h
    cases bs with
    | nil => rfl
    | cons b2 bs2 =>
      cases bs2 with
      | nil => rfl
      | cons b3 bs3 =>
        unfold percentDecode
        rw [if_neg (h b (by simp))]
        rw [ih (fun u hu => h u (by simp [hu]))]

theorem plusToSpace_id : ∀ l : List Nat, (∀ u ∈ l, u ≠ 43) → plusToSpace l = l := by
  intro l
  induction l with
  | nil => intro _; rfl
  | cons b bs ih =>
    intro h
    unfold plusToSpace
    rw [List.map_cons]
    have h1 : (if b = 43 then 32 else b) = b := if_neg (h b (by simp))
    rw [h1]
    have := ih (fun u hu => h u (by simp [hu]))
    unfold plusToSpace at this
    rw [this]

theorem utf8DecodeF_ascii : ∀ (fuel : Nat) (l : List Nat), (∀ u ∈ l, u < 128) →
    l.length ≤ fuel → utf8DecodeF fuel l = l := by
  intro fuel
  induction fuel with
  | zero =>
    intro l _ hlen
    cases l with
    | nil => rfl
    | cons b bs => simp at hlen
  | succ n ih =>
    intro l h hlen
    cases l with
    | nil => rfl
    | cons b bs =>
      unfold utf8DecodeF
      rw [if_pos (h b (by simp))]
      rw [ih bs (fun u hu => h u (by simp [hu]))
        (by simp only [List.length_cons] at hlen; omega)]

theorem decodePiece_safe : ∀ l : List Nat,
    (∀ u ∈ l, u < 128 ∧ u ≠ 37 ∧ u ≠ 43) → decodePiece l = l := by
  intro l h
  unfold decodePiece
  rw [plusToSpace_id l (fun u hu => (h u hu).2.2)]
  rw [percentDecode_id l (fun u hu => (h u hu).2.1)]
  unfold utf8Decode
  exact utf8DecodeF_ascii l.length l (fun u hu => (h u hu).1) (le_refl _)

theorem mem_bytesToHex : ∀ (bs : List Nat) (u : Nat), u ∈ bytesToHex bs →
    (48 ≤ u ∧ u ≤ 57) ∨ (97 ≤ u ∧ u ≤ 102) := by
  intro bs
  induction bs with
  | nil => intro u hu; simp [bytesToHex] at hu
  | cons b rest ih =>
    intro u hu
    unfold bytesToHex at hu
    rw [List.map_cons, List.flatten_cons] at hu
    rcases List.mem_append.mp hu with hu | hu
    · unfold byteHex at hu
      have hlt : ∀ n, n < 16 → (48 ≤ hexDigit n ∧ hexDigit n ≤ 57) ∨
          (97 ≤ hexDigit n ∧ hexDigit n ≤ 102) := by
        intro n hn
        unfold hexDigit
        split_ifs <;> omega
      rcases List.mem_cons.mp hu with hu | hu
      · subst hu; exact hlt _ (Nat.mod_lt _ (by omega))
      · rcases List.mem_cons.mp hu with hu | hu
        · subst hu; exact hlt _ (Nat.mod_lt _ (by omega))
        · simp at hu
    · exact ih u (by unfold bytesToHex; exact hu)


theorem hex_unit_safe {u : Nat} (h : (48 ≤ u ∧ u ≤ 57) ∨ (97 ≤ u ∧ u ≤ 102)) :
    u < 128 ∧ u ≠ 37 ∧ u ≠ 43 ∧ u ≠ 38 ∧ u ≠ 61 := by omega

theorem parseQuery_authdate_hash (h : List Nat)
    (hhex : ∀ u ∈ h, (48 ≤ u ∧ u ≤ 57) ∨ (97 ≤ u ∧ u ≤ 102)) :
    parseQuery (jstr "auth_date=1&hash=" ++ h) =
      [(jstr "auth_date", jstr "1"), (jstr "hash", h)] := by
  have hsafe : ∀ u ∈ h, u < 128 ∧ u ≠ 37 ∧ u ≠ 43 ∧ u ≠ 38 ∧ u ≠ 61 :=
    fun u hu => hex_unit_safe (hhex u hu)
  have hconcrete1 : ∀ u ∈ jstr "auth_date=1&hash=", u < 128 := by decide
  have hconcrete2 : ∀ u ∈ jstr "hash=", u ≠ 38 := by decide
  unfold parseQuery
  have hascii : ∀ u ∈ jstr "auth_date=1&hash=" ++ h, u < 128 := by
    intro u hu
    rcases List.mem_append.mp hu with hu | hu
    · exact hconcrete1 u hu
    · exact (hsafe u hu).1
  rw [utf8Encode_ascii _ hascii]
  have hsplit2 : splitOnAmp (jstr "hash=" ++ h) = [jstr "hash=" ++ h] := by
    apply splitOnAmp_no38
    intro u hu
    rcases List.mem_append.mp hu with hu | hu
    · exact hconcrete2 u hu
    · exact (hsafe u hu).2.2.2.1
  have hsplitb : splitOnAmp (38 :: (jstr "hash=" ++ h)) = [] :: [jstr "hash=" ++ h] := by
    unfold splitOnAmp
    rw [if_pos rfl, hsplit2]
  have heq : jstr "auth_date=1&hash=" ++ h =
      jstr "auth_date=1" ++ (38 :: (jstr "hash=" ++ h)) := by
    simp [jstr]
  rw [heq]
  rw [splitOnAmp_cons_of_piece (jstr "auth_date=1") _ [] [jstr "hash=" ++ h]
    (by decide) hsplitb]
  rw [List.append_nil]
  have hpiece2ne : jstr "hash=" ++ h ≠ [] := by simp [jstr]
  have hfilter : (([jstr "auth_date=1", jstr "hash=" ++ h] : List (List Nat)).filter
      (fun p => p ≠ [])) = [jstr "auth_date=1", jstr "hash=" ++ h] := by
    rw [List.filter_eq_self]
    intro a ha
    rcases List.mem_cons.mp ha with rfl | ha
    · decide
    rcases List.mem_cons.mp ha with rfl | ha
    · exact decide_eq_true hpiece2ne
    · simp at ha
  rw [hfilter]
  have hp1 : splitFirstEq (jstr "auth_date=1") = (jstr "auth_date", jstr "1") := by decide
  have hp2 : splitFirstEq (jstr "hash=" ++ h) = (jstr "hash", h) := by
    have heq2 : jstr "hash=" ++ h = jstr "hash" ++ 61 :: h := by simp [jstr]
    rw [heq2]
    exact splitFirstEq_no61 (jstr "hash") h (by decide)
  have hd1 : decodePiece (jstr "auth_date") = jstr "auth_date" := by decide
  have hd2 : decodePiece (jstr "1") = jstr "1" := by decide
  have hd3 : decodePiece (jstr "hash") = jstr "hash" := by decide
  have hd4 : decodePiece h = h :=
    decodePiece_safe h (fun u hu => ⟨(hsafe u hu).1, (hsafe u hu).2.1, (hsafe u hu).2.2.1⟩)
  rw [List.map_cons, List.map_cons, List.map_nil]
  rw [hp1, hp2]
  simp only [hd1, hd2, hd3, hd4]

theorem wordBytes_lt (w : Nat) : ∀ b ∈ wordBytes w, b < 256 := by
  intro b hb
  unfold wordBytes at hb
  rcases List.mem_cons.mp hb with rfl | hb
  · exact Nat.mod_lt _ (by omega)
  rcases List.mem_cons.mp hb with rfl | hb
  · exact Nat.mod_lt _ (by omega)
  rcases List.mem_cons.mp hb with rfl | hb
  · exact Nat.mod_lt _ (by omega)
  rcases List.mem_cons.mp hb with rfl | hb
  · exact Nat.mod_lt _ (by omega)
  simp at hb

theorem sha256Bytes_lt (msg : List Nat) : ∀ b ∈ sha256Bytes msg, b < 256 := by
  intro b hb
  unfold sha256Bytes stateBytes at hb
  simp only [List.mem_append] at hb
  rcases hb with ((((((h | h) | h) | h) | h) | h) | h) | h <;> exact wordBytes_lt _ _ h

theorem sha256Bytes_length (msg : List Nat) : (sha256Bytes msg).length = 32 := by
  unfold sha256Bytes stateBytes wordBytes
  simp

theorem hmacSha256_length (key msg : List Nat) : (hmacSha256 key msg).length = 32 := by
  unfold hmacSha256
  exact sha256Bytes_length _

theorem hmacSha256_lt (key msg : List Nat) : ∀ b ∈ hmacSha256 key msg, b < 256 := by
  unfold hmacSha256
  exact sha256Bytes_lt _


/-- Big-endian value of a byte list. -/
def bytesToNatBE : List Nat → Nat
  | [] => 0
  | b :: bs => b % 256 * 256 ^ bs.length + bytesToNatBE bs

theorem bytesToNatBE_lt : ∀ l : List Nat, bytesToNatBE l < 256 ^ l.length := by
  intro l
  induction l with
  | nil => decide
  | cons b bs ih =>
    unfold bytesToNatBE
    rw [List.length_cons, pow_succ]
    have h1 : b % 256 < 256 := Nat.mod_lt _ (by omega)
    have h2 : 0 < 256 ^ bs.length := Nat.pos_pow_of_pos _ (by omega)
    nlinarith

theorem bytesToNatBE_inj : ∀ (l1 l2 : List Nat), l1.length = l2.length →
    (∀ b ∈ l1, b < 256) → (∀ b ∈ l2, b < 256) →
    bytesToNatBE l1 = bytesToNatBE l2 → l1 = l2 := by
  intro l1
  induction l1 with
  | nil =>
    intro l2 hlen _ _ _
    cases l2 with
    | nil => rfl
    | cons b bs => simp at hlen
  | cons b1 bs1 ih =>
    intro l2 hlen hb1 hb2 heq
    cases l2 with
    | nil => simp at hlen
    | cons b2 bs2 =>
      simp only [List.length_cons] at hlen
      have hlen' : bs1.length = bs2.length := by omega
      unfold bytesToNatBE at heq
      rw [hlen'] at heq
      have hm1 : b1 % 256 = b1 := Nat.mod_eq_of_lt (hb1 b1 (by simp))
      have hm2 : b2 % 256 = b2 := Nat.mod_eq_of_lt (hb2 b2 (by simp))
      rw [hm1, hm2] at heq
      have hr1 : bytesToNatBE bs1 < 256 ^ bs2.length := by
        rw [← hlen']; exact bytesToNatBE_lt bs1
      have hr2 : bytesToNatBE bs2 < 256 ^ bs2.length := bytesToNatBE_lt bs2
      have hq : 0 < 256 ^ bs2.length := Nat.pos_pow_of_pos _ (by omega)
      have hmod : (256 ^ bs2.length * b1 + bytesToNatBE bs1) % 256 ^ bs2.length =
          (256 ^ bs2.length * b2 + bytesToNatBE bs2) % 256 ^ bs2.length := by
        rw [Nat.mul_comm (256 ^ bs2.length) b1, Nat.mul_comm (256 ^ bs2.length) b2, heq]
      rw [Nat.mul_add_mod, Nat.mul_add_mod] at hmod
      have htails : bytesToNatBE bs1 = bytesToNatBE bs2 := by
        rw [Nat.mod_eq_of_lt hr1, Nat.mod_eq_of_lt hr2] at hmod
        exact hmod
      have hheads : b1 = b2 := by
        rw [htails] at heq
        have := Nat.add_right_cancel heq
        exact Nat.eq_of_mul_eq_mul_right hq this
      rw [hheads, ih bs2 hlen' (fun b hb => hb1 b (by simp [hb]))
        (fun b hb => hb2 b (by simp [hb])) htails]

/-- The big-endian value of the HMAC digest of `auth_date=1` under the
secret `aaa...a` of length `i`; kept irreducible so the pigeonhole
argument below treats it as an opaque function into a finite range. -/
@[irreducible] def digestNat (i : Nat) : Nat :=
  bytesToNatBE (hmacSha256 (sha256Bytes (utf8Encode (List.replicate i 97)))
    (utf8Encode (jstr "auth_date=1")))

theorem digestNat_eq (i : Nat) : digestNat i =
    bytesToNatBE (hmacSha256 (sha256Bytes (utf8Encode (List.replicate i 97)))
      (utf8Encode (jstr "auth_date=1"))) := by
  unfold digestNat
  rfl

theorem digestNat_lt (i : Nat) : digestNat i < 256 ^ 32 := by
  rw [digestNat_eq]
  have h := bytesToNatBE_lt (hmacSha256 (sha256Bytes (utf8Encode (List.replicate i 97)))
    (utf8Encode (jstr "auth_date=1")))
  rw [hmacSha256_length] at h
  exact h

theorem digestNat_collision_pair : ∃ i j : Nat, i ≠ j ∧ digestNat i = digestNat j := by
  obtain ⟨i, j, hij, hf⟩ := Finite.exists_ne_map_eq_of_infinite
    (fun i : Nat => (⟨digestNat i, digestNat_lt i⟩ : Fin (256 ^ 32)))
  exact ⟨i, j, hij, congrArg Fin.val hf⟩

theorem hmac_digest_collision : ∃ s1 s2 : List Nat, s1 ≠ s2 ∧
    hmacSha256 (sha256Bytes (utf8Encode s1)) (utf8Encode (jstr "auth_date=1")) =
    hmacSha256 (sha256Bytes (utf8Encode s2)) (utf8Encode (jstr "auth_date=1")) := by
  obtain ⟨i, j, hij, hv⟩ := digestNat_collision_pair
  rw [digestNat_eq, digestNat_eq] at hv
  refine ⟨List.replicate i 97, List.replicate j 97, ?_, ?_⟩
  · intro hcontra
    apply hij
    have := congrArg List.length hcontra
    simpa using this
  · exact bytesToNatBE_inj _ _ (by rw [hmacSha256_length, hmacSha256_length])
      (hmacSha256_lt _ _) (hmacSha256_lt _ _) hv

theorem verify_hash_payload (h s : List Nat)
    (hhex : ∀ u ∈ h, (48 ≤ u ∧ u ≤ 57) ∨ (97 ≤ u ∧ u ≤ 102)) (hne : h ≠ []) :
    verifyTelegramInitData (jstr "auth_date=1&hash=" ++ h) s =
      decide (bytesToHex (hmacSha256 (sha256Bytes (utf8Encode s))
        (utf8Encode (jstr "auth_date=1"))) = h) := by
  unfold verifyTelegramInitData
  rw [if_neg (by simp [jstr])]
  unfold verifyParams
  rw [parseQuery_authdate_hash h hhex]
  have hget : getFirst (jstr "hash") [(jstr "auth_date", jstr "1"), (jstr "hash", h)] =
      some h := by
    unfold getFirst
    rw [if_neg (show ¬(jstr "auth_date", jstr "1").1 = jstr "hash" by decide)]
    unfold getFirst
    rw [if_pos (show (jstr "hash", h).1 = jstr "hash" from rfl)]
  rw [hget]
  dsimp only
  rw [if_neg hne]
  have hrm : dataCheckString (removeAll (jstr "hash")
      [(jstr "auth_date", jstr "1"), (jstr "hash", h)]) = jstr "auth_date=1" := by
    have hstep : removeAll (jstr "hash") [(jstr "auth_date", jstr "1"), (jstr "hash", h)] =
        [(jstr "auth_date", jstr "1")] := by
      unfold removeAll
      rw [List.filter_cons_of_pos (by decide)]
      rw [List.filter_cons_of_neg (by simp)]
      rw [List.filter_nil]
    rw [hstep]
    decide
  rw [hrm]

/-- C4 counterexample (negation of the universal second half): there is
a payload validly signed for a secret `s1` that also verifies under a
different secret `s2`. The digest space is finite (32 bytes) while
secrets are infinite, so two distinct secrets share the HMAC digest of
the canonical string (pigeonhole); the payload carrying that digest as
its hash verifies under both. -/
theorem claim_C4_counterexample : ∃ (initData s1 s2 : List Nat), s1 ≠ s2 ∧
    verifyTelegramInitData initData s1 = true ∧
    verifyTelegramInitData initData s2 = true := by
  obtain ⟨s1, s2, hne, hcol⟩ := hmac_digest_collision
  have hhex : ∀ u ∈ bytesToHex (hmacSha256 (sha256Bytes (utf8Encode s1))
      (utf8Encode (jstr "auth_date=1"))), (48 ≤ u ∧ u ≤ 57) ∨ (97 ≤ u ∧ u ≤ 102) :=
    fun u hu => mem_bytesToHex _ u hu
  have hDne : bytesToHex (hmacSha256 (sha256Bytes (utf8Encode s1))
      (utf8Encode (jstr "auth_date=1"))) ≠ [] := by
    intro hcontra
    have hl := congrArg List.length hcontra
    unfold bytesToHex at hl
    simp only [List.length_flatten, List.length_nil] at hl
    have h32 := hmacSha256_length (sha256Bytes (utf8Encode s1)) (utf8Encode (jstr "auth_date=1"))
    cases hD : hmacSha256 (sha256Bytes (utf8Encode s1)) (utf8Encode (jstr "auth_date=1")) with
    | nil => rw [hD] at h32; simp at h32
    | cons b bs =>
      rw [hD] at hcontra
      unfold bytesToHex byteHex at hcontra
      simp at hcontra
  refine ⟨jstr "auth_date=1&hash=" ++ bytesToHex (hmacSha256 (sha256Bytes (utf8Encode s1))
    (utf8Encode (jstr "auth_date=1"))), s1, s2, hne, ?_, ?_⟩
  · rw [verify_hash_payload _ s1 hhex hDne]
    simp
  · rw [verify_hash_payload _ s2 hhex hDne]
    rw [hcol]
    simp


/-- C4 as amended: for every payload whose (nonempty) `hash` field
equals the hex HMAC-SHA256, keyed by `SHA256(S)`, of the payload's
canonical string, `verify(payload, S)` is true; and for the same
payload `verify(payload, Sp)` is false exactly for those secrets `Sp`
whose derived digest differs from the stored hash — which cannot be
*all* other secrets, since colliding secrets exist (see the
counterexample). -/
theorem claim_C4_mac_determines :
    ∀ (initData tok tok2 h : List Nat),
    getFirst (jstr "hash") (parseQuery initData) = some h → h ≠ [] →
    (h = bytesToHex (hmacSha256 (sha256Bytes (utf8Encode tok))
        (utf8Encode (dataCheckString (removeAll (jstr "hash") (parseQuery initData))))) →
      verifyTelegramInitData initData tok = true) ∧
    (bytesToHex (hmacSha256 (sha256Bytes (utf8Encode tok2))
        (utf8Encode (dataCheckString (removeAll (jstr "hash") (parseQuery initData))))) ≠ h →
      verifyTelegramInitData initData tok2 = false) := by
  intro initData tok tok2 h hg hne
  have hinit : initData ≠ [] := by
    intro hcontra
    subst hcontra
    rw [show parseQuery [] = [] from rfl] at hg
    simp [getFirst] at hg
  constructor
  · intro heq
    unfold verifyTelegramInitData
    rw [if_neg hinit]
    unfold verifyParams
    rw [hg]
    dsimp only
    rw [if_neg hne]
    rw [← heq]
    simp
  · intro hneq
    unfold verifyTelegramInitData
    rw [if_neg hinit]
    unfold verifyParams
    rw [hg]
    dsimp only
    rw [if_neg hne]
    exact decide_eq_false hneq

/-- C4 witness: the signed `{"id":555}` payload verifies under its
secret `token` and fails under the secret `other`, whose digest
differs. -/
theorem claim_C4_mac_determines_witness :
    verifyTelegramInitData initW (jstr "token") = true ∧
    verifyTelegramInitData initW (jstr "other") = false := by
  have h := claim_C4_mac_determines initW (jstr "token") (jstr "other")
    (jstr "6907c1b0720728c4cd42d1e16a88af45a95dd884ba384f5b1cdf32a18ed5783a") rfl (by decide)
  exact ⟨h.1 (by decide), h.2 (by decide)⟩


end TgAuth
